import Mathlib

/-!
Verification development for the EQT deep-research pipeline
(src/backend/lambda).  Python strings are modelled as lists of
characters (`Str`), Python dictionaries as association lists, machine
calls to external collaborators (Bedrock, Tavily, DynamoDB, the web
scraper) as explicit oracle parameters, and every Python function that
catches its own exceptions as a total Lean function.
-/

set_option maxHeartbeats 1000000

/-- Model of a Python `str`: a list of characters. -/
abbrev Str := List Char

/-- Left brace character, used when building JSON test data. -/
def lbChar : Char := '\x7b'

/-- Right brace character. -/
def rbChar : Char := '\x7d'

/-- Backquote character (the fence character of markdown code blocks). -/
def btChar : Char := '\x60'

/-- Characters matched by the regex class backslash-s and by Python
`str.strip` with no argument: space, tab, newline, carriage return,
vertical tab, form feed. -/
def isPySpace (c : Char) : Bool :=
  c == ' ' || c == '\t' || c == '\n' || c == '\r' || c == '\x0b' || c == '\x0c'

/-- Drop the maximal run of whitespace at the front (greedy `\s*`). -/
def dropWs (cs : Str) : Str := cs.dropWhile isPySpace

/-- Boolean test: does `cs` start with the pattern `pat`? -/
def leadsWith : Str → Str → Bool
  | [], _ => true
  | _ :: _, [] => false
  | p :: ps, c :: cs => p == c && leadsWith ps cs

/-- Remove trailing Python whitespace. -/
def trimRightStr (cs : Str) : Str := (cs.reverse.dropWhile isPySpace).reverse

/-- Model of Python `str.strip()`: remove leading and trailing whitespace. -/
def pyStrip (cs : Str) : Str := trimRightStr (dropWs cs)

/-- Model of Python truthiness of an optional string: `None` and the
empty string are falsy. -/
def optFalsy (o : Option Str) : Bool :=
  match o with
  | none => true
  | some s => s.isEmpty

/-- Return the characters strictly before the first occurrence of `pat`
in `cs`, or `none` when `pat` does not occur.  This is the lazy group
`(.*?)` of the fenced-block regex: the shortest prefix after which the
literal closing pattern follows. -/
def findBefore (pat : Str) : Str → Option Str
  | [] => if leadsWith pat [] then some [] else none
  | c :: rest =>
    if leadsWith pat (c :: rest) then some []
    else (findBefore pat rest).map (fun b => c :: b)

/-- The three-backquote fence pattern. -/
def fencePat : Str := [btChar, btChar, btChar]

/-!
Model of the DOTALL re.search for the pattern ```(?:json)?\s*\n?(.*?)```
from `extract_structured_data` (src/backend/lambda/utils/ai_utils.py).
The engine finds the leftmost start position where the whole pattern can
match.  At a given start the optional tag `(?:json)?` is tried greedily;
since the four tag letters are never backquotes, taking the tag when it
is present never loses a match.  `\s*` is greedy and, because no
whitespace character is a backquote, the closing fence can never begin
inside the consumed whitespace run, so maximal consumption never loses a
match either; `\n?` then necessarily matches the empty string.  The lazy
group finally extends to the next literal fence.  Hence the model below:
at each candidate start, require a fence, optionally consume the tag,
consume all whitespace, and return the characters before the next fence.
-/

/-- Attempt the fenced-block pattern anchored at the start of `cs`,
returning the captured group. -/
def tryFencedAt (cs : Str) : Option Str :=
  if leadsWith fencePat cs then
    let r0 := cs.drop 3
    let r1 := if leadsWith "json".data r0 then r0.drop 4 else r0
    findBefore fencePat (dropWs r1)
  else none

/-- Scan for the leftmost start position of the fenced-block pattern. -/
def reSearchFenced : Str → Option Str
  | [] => none
  | c :: rest =>
    match tryFencedAt (c :: rest) with
    | some g => some g
    | none => reSearchFenced rest

/-- Model of the DOTALL re.search for a brace span: leftmost start,
greedy extent.  The match runs from the first left brace that has some
right brace after it, to the last right brace of the text.  If the first
left brace has no later right brace then no later left brace has one
either, so the whole search fails. -/
def braceSpan (cs : Str) : Option Str :=
  match cs.dropWhile (fun c => !(c == lbChar)) with
  | [] => none
  | c :: rest =>
    match (c :: rest).reverse.dropWhile (fun ch => !(ch == rbChar)) with
    | [] => none
    | r2 => some r2.reverse

/-!
Model of the multiline re.sub removing ^\s*//.*$ lines (and the analogous
hash-marker substitution).  In multiline mode a match must start at the
beginning of a line; `\s*` is greedy and may cross newlines, and only
the maximal whitespace run can be followed by the marker (a shorter
prefix of the run is followed by a whitespace character, which is not
the marker head).  `.*` without DOTALL then extends to the end of the
line on which the marker run ends, and `$` is zero width, so the
terminating newline survives.  `re.sub` resumes scanning right after
each removed span; that position holds the surviving newline (or the
end of the text) and is not a line start, matching the `false` flag
passed below. -/

/-- Does the comment pattern match at this position (which the caller
guarantees is a line start)? -/
def commentHead (marker cs : Str) : Bool := leadsWith marker (dropWs cs)

/-- Remove one matched comment span: the whitespace run, the marker, and
the rest of the line, keeping the terminating newline. -/
def dropCommentAt (marker cs : Str) : Str :=
  (((dropWs cs).drop marker.length).dropWhile (fun c => !(c == '\n')))

/-- Fuel-driven scanner for the comment substitution.  The fuel is the
length of the input; every step consumes at least one character, so the
initial fuel always suffices. -/
def stripCommentsGo (marker : Str) : Nat → Bool → Str → Str
  | 0, _, cs => cs
  | Nat.succ fuel, atStart, cs =>
    match cs with
    | [] => []
    | c :: rest =>
      if atStart && commentHead marker (c :: rest) then
        stripCommentsGo marker fuel false (dropCommentAt marker (c :: rest))
      else
        c :: stripCommentsGo marker fuel (c == '\n') rest

/-- Model of one multiline comment-removing re.sub call. -/
def stripComments (marker cs : Str) : Str :=
  stripCommentsGo marker cs.length true cs

/-- JSON values as produced by `json.loads`.  Numbers keep their source
lexeme (Python would build an `int` or `float`; the lexeme determines
that value, and nothing in the verified code inspects it beyond
truthiness). -/
inductive Json where
  | null : Json
  | bool : Bool → Json
  | num : Str → Json
  | str : Str → Json
  | arr : List Json → Json
  | obj : List (Str × Json) → Json
deriving Repr

/-- Is this JSON value an object (a Python dict)? -/
def Json.isObjVal : Json → Bool
  | .obj _ => true
  | _ => false

/-- Zero test on a number lexeme, for Python truthiness: a numeric JSON
value is falsy exactly when its mantissa (the part before any exponent
marker) contains a digit and no nonzero digit. -/
def numIsZero (lex : Str) : Bool :=
  let mant := lex.takeWhile (fun c => !(c == 'e' || c == 'E'))
  mant.any Char.isDigit && mant.all (fun c => !c.isDigit || c == '0')

/-- Python truthiness of a JSON value: `None`, `False`, zero, and the
empty string, list, and dict are falsy. -/
def jsonFalsy : Json → Bool
  | .null => true
  | .bool b => !b
  | .num lex => numIsZero lex
  | .str s => s.isEmpty
  | .arr xs => xs.isEmpty
  | .obj kvs => kvs.isEmpty

/-!
Model of `json.loads` (the Python standard-library decoder invoked by
`extract_structured_data`): a recursive-descent parser over the JSON
grammar, fuel-indexed for termination.  The fuel passed at top level is
generous; every recursive call consumes at least one character per two
fuel units, so the top-level fuel never runs out.  Strict-mode behaviour
is modelled: unescaped control characters inside strings are rejected,
and the non-standard literals NaN, Infinity and -Infinity accepted by
the Python decoder are recognised.
-/

/-- Hexadecimal digit value. -/
def hexVal (c : Char) : Option Nat :=
  if c.isDigit then some (c.toNat - 48)
  else if 'a' ≤ c && c ≤ 'f' then some (c.toNat - 87)
  else if 'A' ≤ c && c ≤ 'F' then some (c.toNat - 55)
  else none

/-- Decode a backslash-u escape given the four following characters. -/
def decodeU (a b c d : Char) : Option Char :=
  match hexVal a, hexVal b, hexVal c, hexVal d with
  | some x, some y, some z, some w =>
    let n := ((x * 16 + y) * 16 + z) * 16 + w
    if h : n.isValidChar then some (Char.ofNatAux n h) else some (Char.ofNat 0xfffd)
  | _, _, _, _ => none

/-- Parse the body of a JSON string, after the opening quote; returns
the decoded characters and the input after the closing quote. -/
def parseStrBody : Nat → Str → Option (Str × Str)
  | 0, _ => none
  | Nat.succ fuel, cs =>
    match cs with
    | [] => none
    | c :: rest =>
      if c == '"' then some ([], rest)
      else if c == '\\' then
        match rest with
        | [] => none
        | e :: rest2 =>
          if e == '"' then (parseStrBody fuel rest2).map (fun p => ('"' :: p.1, p.2))
          else if e == '\\' then (parseStrBody fuel rest2).map (fun p => ('\\' :: p.1, p.2))
          else if e == '/' then (parseStrBody fuel rest2).map (fun p => ('/' :: p.1, p.2))
          else if e == 'b' then (parseStrBody fuel rest2).map (fun p => ('\x08' :: p.1, p.2))
          else if e == 'f' then (parseStrBody fuel rest2).map (fun p => ('\x0c' :: p.1, p.2))
          else if e == 'n' then (parseStrBody fuel rest2).map (fun p => ('\n' :: p.1, p.2))
          else if e == 'r' then (parseStrBody fuel rest2).map (fun p => ('\r' :: p.1, p.2))
          else if e == 't' then (parseStrBody fuel rest2).map (fun p => ('\t' :: p.1, p.2))
          else if e == 'u' then
            match rest2 with
            | a :: b :: c2 :: d :: rest3 =>
              match decodeU a b c2 d with
              | some ch => (parseStrBody fuel rest3).map (fun p => (ch :: p.1, p.2))
              | none => none
            | _ => none
          else none
      else if c.toNat < 0x20 then none
      else (parseStrBody fuel rest).map (fun p => (c :: p.1, p.2))

/-- Split a maximal run of decimal digits off the front. -/
def takeDigits (cs : Str) : Str × Str :=
  (cs.takeWhile Char.isDigit, cs.dropWhile Char.isDigit)

/-- Parse the optional fraction part `.digits`. -/
def parseFrac (cs : Str) : Option (Str × Str) :=
  match cs with
  | '.' :: r =>
    let (ds, r2) := takeDigits r
    if ds.isEmpty then none else some ('.' :: ds, r2)
  | _ => some ([], cs)

/-- Parse the optional exponent part `[eE][+-]?digits`. -/
def parseExp (cs : Str) : Option (Str × Str) :=
  match cs with
  | e :: r =>
    if e == 'e' || e == 'E' then
      let (sgn, r1) := match r with
        | '+' :: r2 => ([('+' : Char)], r2)
        | '-' :: r2 => ([('-' : Char)], r2)
        | _ => (([] : Str), r)
      let (ds, r2) := takeDigits r1
      if ds.isEmpty then none else some (e :: (sgn ++ ds), r2)
    else some ([], cs)
  | [] => some ([], [])

/-- Parse a JSON number (after any leading minus handled by the caller):
`(0 | [1-9][0-9]*) frac? exp?`, returning the lexeme. -/
def parseNumTail (cs : Str) : Option (Str × Str) :=
  let (ip, r1) := takeDigits cs
  match ip with
  | [] => none
  | d0 :: drest =>
    if d0 == '0' && !drest.isEmpty then none
    else
      match parseFrac r1 with
      | none => none
      | some (fp, r2) =>
        match parseExp r2 with
        | none => none
        | some (ep, r3) => some (ip ++ fp ++ ep, r3)

mutual

/-- Parse one JSON value (leading whitespace allowed). -/
def parseVal : Nat → Str → Option (Json × Str)
  | 0, _ => none
  | Nat.succ fuel, cs =>
    match dropWs cs with
    | [] => none
    | c :: rest =>
      if c == '"' then
        (parseStrBody (rest.length + 1) rest).map (fun p => (Json.str p.1, p.2))
      else if c == lbChar then parseObjStart fuel rest
      else if c == '[' then parseArrStart fuel rest
      else if leadsWith "true".data (c :: rest) then some (Json.bool true, (c :: rest).drop 4)
      else if leadsWith "false".data (c :: rest) then some (Json.bool false, (c :: rest).drop 5)
      else if leadsWith "null".data (c :: rest) then some (Json.null, (c :: rest).drop 4)
      else if leadsWith "NaN".data (c :: rest) then some (Json.num "NaN".data, (c :: rest).drop 3)
      else if leadsWith "Infinity".data (c :: rest) then
        some (Json.num "Infinity".data, (c :: rest).drop 8)
      else if leadsWith "-Infinity".data (c :: rest) then
        some (Json.num "-Infinity".data, (c :: rest).drop 9)
      else if c == '-' then
        (parseNumTail rest).map (fun p => (Json.num ('-' :: p.1), p.2))
      else if c.isDigit then
        (parseNumTail (c :: rest)).map (fun p => (Json.num p.1, p.2))
      else none

/-- Parse array elements directly after the opening bracket. -/
def parseArrStart : Nat → Str → Option (Json × Str)
  | 0, _ => none
  | Nat.succ fuel, cs =>
    match dropWs cs with
    | ']' :: r => some (Json.arr [], r)
    | other =>
      match parseVal fuel other with
      | none => none
      | some (v, r1) =>
        (parseArrMore fuel r1).map (fun p => (Json.arr (v :: p.1), p.2))

/-- Parse the continuation of an array after one element. -/
def parseArrMore : Nat → Str → Option (List Json × Str)
  | 0, _ => none
  | Nat.succ fuel, cs =>
    match dropWs cs with
    | ']' :: r => some ([], r)
    | ',' :: r =>
      match parseVal fuel r with
      | none => none
      | some (v, r1) => (parseArrMore fuel r1).map (fun p => (v :: p.1, p.2))
    | _ => none

/-- Parse object members directly after the opening brace. -/
def parseObjStart : Nat → Str → Option (Json × Str)
  | 0, _ => none
  | Nat.succ fuel, cs =>
    match dropWs cs with
    | [] => none
    | c :: r =>
      if c == rbChar then some (Json.obj [], r)
      else if c == '"' then
        match parseMember fuel (c :: r) with
        | none => none
        | some (kv, r1) =>
          (parseObjMore fuel r1).map (fun p => (Json.obj (kv :: p.1), p.2))
      else none

/-- Parse the continuation of an object after one member. -/
def parseObjMore : Nat → Str → Option (List (Str × Json) × Str)
  | 0, _ => none
  | Nat.succ fuel, cs =>
    match dropWs cs with
    | [] => none
    | c :: r =>
      if c == rbChar then some ([], r)
      else if c == ',' then
        match parseMember fuel r with
        | none => none
        | some (kv, r1) => (parseObjMore fuel r1).map (fun p => (kv :: p.1, p.2))
      else none

/-- Parse one `"key": value` member (leading whitespace allowed). -/
def parseMember : Nat → Str → Option ((Str × Json) × Str)
  | 0, _ => none
  | Nat.succ fuel, cs =>
    match dropWs cs with
    | '"' :: r =>
      match parseStrBody (r.length + 1) r with
      | none => none
      | some (k, r1) =>
        match dropWs r1 with
        | ':' :: r2 => (parseVal fuel r2).map (fun p => ((k, p.1), p.2))
        | _ => none
    | _ => none

end

/-- Model of `json.loads`: parse one document, requiring only
whitespace after it. -/
def parseJson (cs : Str) : Option Json :=
  match parseVal (cs.length * 2 + 4) cs with
  | some (v, rest) => if (dropWs rest).isEmpty then some v else none
  | none => none

/-- The candidate cleanup performed by `extract_structured_data`:
`str.strip`, then the double-slash comment substitution, then the hash
comment substitution. -/
def cleanupCandidate (g : Str) : Str :=
  stripComments ['#'] (stripComments ['/', '/'] (pyStrip g))

/-- Parse a cleaned candidate, degrading to the empty object on any
decode failure (the `json.JSONDecodeError` handler returns the empty
dict). -/
def parseOrEmpty (s : Str) : Json :=
  match parseJson s with
  | some v => v
  | none => Json.obj []

/-- Model of `extract_structured_data` in
src/backend/lambda/utils/ai_utils.py (lines 261-312): empty input gives
the empty dict; otherwise search for a fenced block (optionally tagged
json); if none, search for a brace span; clean up and parse the
candidate; every failure path yields the empty dict.  The
`expected_format` argument only affects log text and is omitted. -/
def extract_structured_data (text : Str) : Json :=
  if text.isEmpty then Json.obj []
  else
    match reSearchFenced text with
    | some g => parseOrEmpty (cleanupCandidate g)
    | none =>
      match braceSpan text with
      | some g => parseOrEmpty (cleanupCandidate g)
      | none => Json.obj []

/-!
Models of src/backend/lambda/utils/research_utils.py.  The Bedrock model
call made by each helper is an oracle argument (an optional response
text, since `get_bedrock_response` returns `Optional[str]` and never
raises in the paths these helpers exercise); the web scraper and the
per-round helpers of the deep-research loop are likewise oracles.
-/

/-- A Python dict with string keys and string values (a portfolio
company record as consumed by `gather_company_info`). -/
abbrev CompanyDict := List (Str × Str)

/-- Model of `dict.get(key)`: the first binding of the key, if any. -/
def dictGet (d : CompanyDict) (k : Str) : Option Str :=
  (d.find? (fun p => p.1 == k)).map Prod.snd

/-- Model of `dict.get(key)` on a decoded JSON object. -/
def jsonGet (kvs : List (Str × Json)) (k : Str) : Option Json :=
  (kvs.find? (fun p => p.1 == k)).map Prod.snd

mutual

/-- Schematic model of Python `str()` applied to a decoded JSON value,
used only to build log/status message text (`repr`-style rendering). -/
def jsonDisplay : Json → Str
  | .null => "None".data
  | .bool true => "True".data
  | .bool false => "False".data
  | .num lex => lex
  | .str s => s
  | .arr xs => '[' :: jsonDisplayItems xs ++ [']']
  | .obj kvs => lbChar :: jsonDisplayMembers kvs ++ [rbChar]

/-- Render array elements, comma separated. -/
def jsonDisplayItems : List Json → Str
  | [] => []
  | [x] => jsonDisplay x
  | x :: y :: xs => jsonDisplay x ++ ", ".data ++ jsonDisplayItems (y :: xs)

/-- Render object members, comma separated. -/
def jsonDisplayMembers : List (Str × Json) → Str
  | [] => []
  | [(k, v)] => '\x27' :: k ++ "\x27: ".data ++ jsonDisplay v
  | (k, v) :: m :: kvs =>
    '\x27' :: k ++ "\x27: ".data ++ jsonDisplay v ++ ", ".data ++
      jsonDisplayMembers (m :: kvs)

end

/-- Model of `identify_company_in_query` (research_utils.py lines
14-88).  `bedrockResp` is the oracle outcome of the single
`get_bedrock_response` call; `companies` only undergoes an emptiness
check before being embedded in the prompt.  The final `company_data.get`
inside the log call raises `AttributeError` when the selected value is
not a dict, and the catch-all handler converts that to `None`. -/
def identify_company_in_query (bedrockResp : Option Str) (query : Str)
    (companies : List CompanyDict) : Option Json :=
  if (pyStrip query).isEmpty then none
  else if companies.isEmpty then none
  else
    match bedrockResp with
    | none => none
    | some resp =>
      if resp.isEmpty then none
      else
        let companyData := extract_structured_data resp
        if jsonFalsy companyData then none
        else
          let selected :=
            match companyData with
            | Json.arr (x :: _) => x
            | other => other
          match selected with
          | Json.obj kvs => some (Json.obj kvs)
          | _ => none

/-- Model of `gather_company_info` (research_utils.py lines 91-178).
`scrape` is the `scrape_website` collaborator (total: it returns the
empty string on any failure).  The second component of the result is the
log of `(url, depth)` fetch requests issued.  The `deep_research`
parameter is received but never used: the conditional depth is commented
out in the source and `company_depth` is fixed at 2. -/
def gather_company_info (scrape : Str → Nat → Str) (companyData : CompanyDict)
    (deepResearch : Bool) : (Option Str × Option Str) × List (Str × Nat) :=
  if companyData.isEmpty then ((none, none), [])
  else
    let eqtDepth := 1
    let companyDepth := 2
    match dictGet companyData "link".data with
    | none => ((none, none), [])
    | some eqtWebsite =>
      if eqtWebsite.isEmpty then ((none, none), [])
      else if !(leadsWith "http://".data eqtWebsite || leadsWith "https://".data eqtWebsite) then
        ((none, none), [])
      else
        let eqtContent := scrape eqtWebsite eqtDepth
        match dictGet companyData "website".data with
        | none => ((none, none), [(eqtWebsite, eqtDepth)])
        | some companyWebsite =>
          if companyWebsite.isEmpty then ((none, none), [(eqtWebsite, eqtDepth)])
          else if !(leadsWith "http://".data companyWebsite || leadsWith "https://".data companyWebsite) then
            ((none, none), [(eqtWebsite, eqtDepth)])
          else
            let companyContent := scrape companyWebsite companyDepth
            ((some eqtContent, some companyContent),
             [(eqtWebsite, eqtDepth), (companyWebsite, companyDepth)])

/-- Outcome of the Bedrock call made by `generate_fallback_response`:
a returned optional text, or a raised exception (`ValueError` is
reported with its own canned message by the source). -/
inductive FallbackCallOut where
  | resp (r : Option Str)
  | raiseValueError
  | raiseOther

/-- Template text of `Prompts.NO_COMPANY_PROMPT` before the `$query`
placeholder. -/
def noCompanyPromptPre : Str :=
  "##Instructions\nYou are a frinedly and concise financial AI assistant helping with EQT portfolio companies. \n\n<user_query>\n".data

/-- Template text of `Prompts.NO_COMPANY_PROMPT` after the `$query`
placeholder (abridged task instructions; only non-emptiness matters to
the verified control flow). -/
def noCompanyPromptSuf : Str :=
  "\n</user_query>\n\n## Task\nGenerate a short, friendly and concise response to the query, explaining that you can only support with EQT portfolio companies.\n".data

/-- Model of `get_prompt(Prompts.NO_COMPANY_PROMPT, query=query)`:
template substitution at the `$query` placeholder. -/
def noCompanyPromptOf (query : Str) : Str :=
  noCompanyPromptPre ++ query ++ noCompanyPromptSuf

/-- Canned reply for a blank query. -/
def cannedNoQuery : Str :=
  "I\x27m sorry, but I didn\x27t receive a valid query to respond to.".data

/-- Canned reply for a failed prompt build. -/
def cannedNoPrompt : Str :=
  "I\x27m sorry, but I couldn\x27t understand which company you\x27re asking about.".data

/-- Canned reply for a missing model response and for the generic
exception handler. -/
def cannedOnlyPortfolio : Str :=
  "I\x27m sorry, but I can only provide information about specific EQT portfolio companies.".data

/-- Canned reply of the `ValueError` handler. -/
def cannedValueError : Str :=
  "I\x27m sorry, but I encountered an error processing your query.".data

/-- Model of `generate_fallback_response` (research_utils.py lines
458-507): every failure path returns a canned non-empty apology and no
exception escapes. -/
def generate_fallback_response (bedrock : FallbackCallOut) (query : Str) : Str :=
  if (pyStrip query).isEmpty then cannedNoQuery
  else
    let prompt := noCompanyPromptOf query
    if prompt.isEmpty then cannedNoPrompt
    else
      match bedrock with
      | .raiseValueError => cannedValueError
      | .raiseOther => cannedOnlyPortfolio
      | .resp none => cannedOnlyPortfolio
      | .resp (some r) => if r.isEmpty then cannedOnlyPortfolio else r

/-- A validated knowledge gap (a description plus at least one search
query), as produced by `identify_knowledge_gaps`. -/
structure KnowledgeGap where
  description : Str
  searchQueries : List Str

/-- Per-round oracles of the deep-research loop: the outcomes of
`identify_knowledge_gaps`, `perform_research` and
`incorporate_new_research` in a given round.  All three source helpers
catch their own exceptions and return plain values, so pure oracles are
faithful. -/
structure ResearchOracle where
  identifyGaps : Nat → Str → List KnowledgeGap
  research : Nat → List KnowledgeGap → List Str
  incorporate : Nat → Str → List Str → Str

/-- The round loop of `perform_deep_research_rounds` (research_utils.py
lines 875-926).  `roundNum` is the 1-based number of the round about to
run, `remaining` the number of rounds still allowed.  The result pairs
the final analysis with the value of `round_num` after the loop, i.e.
the number of rounds begun. -/
def deepLoop (o : ResearchOracle) : Nat → Nat → Str → Str × Nat
  | roundNum, 0, analysis => (analysis, roundNum - 1)
  | roundNum, Nat.succ remaining, analysis =>
    let gaps := o.identifyGaps roundNum analysis
    if gaps.isEmpty then (analysis, roundNum)
    else
      let sections := o.research roundNum gaps
      if sections.isEmpty then (analysis, roundNum)
      else
        let newAnalysis := o.incorporate roundNum analysis sections
        if newAnalysis = analysis then (analysis, roundNum)
        else deepLoop o (roundNum + 1) remaining newAnalysis

/-- The effective round budget: a `rounds` value below 1 is replaced by
1 (research_utils.py lines 868-870). -/
def effRounds (rounds : Int) : Nat :=
  if rounds < 1 then 1 else rounds.toNat

/-- Model of `perform_deep_research_rounds` (research_utils.py lines
834-929): guard clauses for blank query and blank analysis, clamping of
the round budget, then the round loop.  The second component is the
number of rounds begun. -/
def perform_deep_research_rounds (o : ResearchOracle) (query currentAnalysis : Str)
    (rounds : Int) : Str × Nat :=
  if (pyStrip query).isEmpty then (currentAnalysis, 0)
  else if (pyStrip currentAnalysis).isEmpty then ([], 0)
  else deepLoop o 1 (effRounds rounds) currentAnalysis

/-- One of the three convergence signals fires in round `roundNum` on
`analysis`: empty gaps, zero sections for those gaps, or a no-op
enrichment. -/
def stopCondAt (o : ResearchOracle) (roundNum : Nat) (analysis : Str) : Prop :=
  (o.identifyGaps roundNum analysis).isEmpty = true
  ∨ (o.research roundNum (o.identifyGaps roundNum analysis)).isEmpty = true
  ∨ o.incorporate roundNum analysis
      (o.research roundNum (o.identifyGaps roundNum analysis)) = analysis

/-!
Model of `get_bedrock_response` (src/backend/lambda/utils/bedrock_utils.py
lines 37-143).  The `client.converse` collaborator is an oracle keyed by
the `maxTokens` argument of the call (the only argument that differs
between the first attempt and the retry).  One genuine raising path is
modelled: when the code raises before `client` is bound (missing region,
or `boto3.client` itself raising), Python evaluates the first except
clause expression `client.exceptions.AccessDeniedException`, and that
evaluation raises `UnboundLocalError`, which escapes the function — the
trailing `except Exception` clause is never consulted for an exception
raised while matching an earlier clause.  `ModelTimeoutException` is a
generated subclass of `ClientError`, so a re-raised or second timeout is
caught by the `except ClientError` clause and converted to `None`.
-/

/-- An item of `output.message.content`: either a dict with a `text`
field, or some other content dict. -/
inductive ContentItem where
  | text (s : Str)
  | other

/-- Outcome of one `client.converse` call. -/
inductive ConverseOut where
  | ok (content : Option (List ContentItem))
  | timeout
  | accessDenied
  | resourceNotFound
  | throttling
  | paramValidation
  | clientError
  | otherError

/-- The three Bedrock model tiers. -/
inductive ModelSize where
  | small
  | medium
  | large
deriving DecidableEq

/-- Environment of `get_bedrock_response`: the configured region, the
outcome of `boto3.client` construction, and the converse oracle. -/
structure BedrockEnv where
  region : Option Str
  clientCreate : Except Str Unit
  converse : Nat → ConverseOut

/-- Result of a call that may raise past its boundary. -/
inductive CallResult where
  | value (r : Option Str)
  | raised (e : Str)

/-- Is the result a raised exception? -/
def CallResult.isRaised : CallResult → Bool
  | .raised _ => true
  | .value _ => false

/-- First content item carrying a `text` field. -/
def firstText : List ContentItem → Option Str
  | [] => none
  | .text s :: _ => some s
  | .other :: rest => firstText rest

/-- Schematic model of `str(output_message["content"])`, returned when
no item carries a `text` field. -/
def strOfContent (_ : List ContentItem) : Str :=
  "[content without text field]".data

/-- Extract the response text from a successful converse response:
missing structure (`KeyError`) gives `None`; otherwise the first `text`
item, or the stringified content list. -/
def extractConverse (content : Option (List ContentItem)) : CallResult :=
  match content with
  | none => .value none
  | some items =>
    match firstText items with
    | some t => .value (some t)
    | none => .value (some (strOfContent items))

/-- Model of `get_bedrock_response`.  The second component is the list
of `maxTokens` values of the converse calls issued, in order. -/
def get_bedrock_response (env : BedrockEnv) (prompt : Str) (modelSize : ModelSize)
    (maxTokens : Nat) : CallResult × List Nat :=
  if (pyStrip prompt).isEmpty then (.value none, [])
  else
    match env.region with
    | none => (.raised "UnboundLocalError".data, [])
    | some _ =>
      match env.clientCreate with
      | .error _ => (.raised "UnboundLocalError".data, [])
      | .ok _ =>
        match env.converse maxTokens with
        | .ok content => (extractConverse content, [maxTokens])
        | .timeout =>
          if modelSize = .large ∧ 2000 < maxTokens then
            match env.converse 2000 with
            | .ok content => (extractConverse content, [maxTokens, 2000])
            | _ => (.value none, [maxTokens, 2000])
          else (.value none, [maxTokens])
        | .accessDenied => (.value none, [maxTokens])
        | .resourceNotFound => (.value none, [maxTokens])
        | .throttling => (.value none, [maxTokens])
        | .paramValidation => (.value none, [maxTokens])
        | .clientError => (.value none, [maxTokens])
        | .otherError => (.value none, [maxTokens])

/-!
Models of the job store (src/backend/lambda/utils/db_utils.py) and the
pipeline orchestrator (src/backend/lambda/research_processor.py).  A
DynamoDB `update_item` call only sets the attributes for which a
non-`None` argument was supplied; absent arguments leave the stored
attribute unchanged.  Timestamps are not modelled.
-/

/-- The job state machine of utils/types.py. -/
inductive JobStatus where
  | pending
  | processing
  | completed
  | failed
deriving DecidableEq

/-- The stored job record (the attributes relevant to the status
invariant). -/
structure JobItem where
  status : JobStatus
  message : Option Str
  result : Option Str
  error : Option Str
deriving DecidableEq

/-- The record written by `create_job`: `Pending`, a creation message,
no result, no error. -/
def initialJob : JobItem :=
  ⟨.pending, some "Job created, waiting to start processing".data, none, none⟩

/-- The arguments of one `update_job_status` call. -/
structure UpdateArgs where
  status : JobStatus
  message : Option Str
  result : Option Str
  error : Option Str
deriving DecidableEq

/-- DynamoDB single-attribute update semantics: a supplied value
replaces the attribute, an absent argument keeps the old value. -/
def setField (old new : Option Str) : Option Str :=
  match new with
  | some v => some v
  | none => old

/-- Apply one `update_job_status` call to a stored record. -/
def applyUpdate (item : JobItem) (u : UpdateArgs) : JobItem :=
  ⟨u.status, setField item.message u.message, setField item.result u.result,
   setField item.error u.error⟩

/-- The write issued by `_update_status`: `Processing` plus a progress
message. -/
def progressW (msg : Str) : UpdateArgs := ⟨.processing, some msg, none, none⟩

/-- The write issued by `_complete_job`. -/
def completeW (result : Str) : UpdateArgs :=
  ⟨.completed, some "Research complete".data, some result, none⟩

/-- The write issued by `_fail_job` (no message argument). -/
def failW (err : Str) : UpdateArgs := ⟨.failed, none, none, some err⟩

/-- The status/result/error invariant claimed by the specification. -/
def statusInv (j : JobItem) : Prop :=
  (j.status = .completed → j.result ≠ none ∧ j.error = none)
  ∧ (j.status = .failed → j.error ≠ none ∧ j.result = none)
  ∧ ((j.status = .pending ∨ j.status = .processing) → j.result = none ∧ j.error = none)

/-- A clean non-terminal record: `Pending` or `Processing` with neither
result nor error set. -/
def cleanNT (j : JobItem) : Prop :=
  (j.status = .pending ∨ j.status = .processing) ∧ j.result = none ∧ j.error = none

/-- Company name for status messages:
`company_data.get("name", "the company")` rendered by the f-string. -/
def objGetName (kvs : List (Str × Json)) : Str :=
  match jsonGet kvs "name".data with
  | some j => jsonDisplay j
  | none => "the company".data

/-- Step oracles of `ResearchPipeline.process`.  Each field is the
outcome of the corresponding helper call; an `error` value models an
unexpected exception propagating out of the step into the top-level
handler, which converts it to a `fail` write. -/
structure PipelineEnv where
  fetchCompanies : Except Str (List CompanyDict)
  identifyCompany : Except Str (Option (List (Str × Json)))
  fallbackResp : Except Str (Option Str)
  gatherInfo : Except Str (Option Str × Option Str)
  queryKB : Except Str (Option Str)
  analyze : Except Str (Option Str)
  deepRounds : Str → Except Str Str

/-- Message text of the top-level exception handler. -/
def researchErrorMsg (e : Str) : Str := "Research error: ".data ++ e

/-- The no-company branch of `process` (research_processor.py lines
115-123): generate a fallback response, fail on a falsy one, complete
otherwise.  `pre` is the list of writes already issued. -/
def runFallback (env : PipelineEnv) (pre : List UpdateArgs) :
    List UpdateArgs × Bool :=
  let w := progressW "Generating general response".data
  match env.fallbackResp with
  | .error e => (pre ++ [w, failW (researchErrorMsg e)], false)
  | .ok fb =>
    if optFalsy fb then (pre ++ [w, failW "Failed to generate response".data], false)
    else (pre ++ [w, completeW (fb.getD [])], true)

/-- The identified-company branch of `process` (research_processor.py
lines 125-166): gather, knowledge base, analysis, optional deep
research, completion. -/
def runMain (env : PipelineEnv) (deepResearch : Bool) (researchRounds : Int)
    (kvs : List (Str × Json)) (pre : List UpdateArgs) : List UpdateArgs × Bool :=
  let name := objGetName kvs
  let w3 := progressW ("Gathering information about ".data ++ name)
  match env.gatherInfo with
  | .error e => (pre ++ [w3, failW (researchErrorMsg e)], false)
  | .ok (eqtContent, companyContent) =>
    if optFalsy eqtContent || optFalsy companyContent then
      (pre ++ [w3, failW "Failed to gather company information".data], false)
    else
      match env.queryKB with
      | .error e => (pre ++ [w3, failW (researchErrorMsg e)], false)
      | .ok _kbData =>
        let w4 := progressW "Analyzing collected information".data
        match env.analyze with
        | .error e => (pre ++ [w3, w4, failW (researchErrorMsg e)], false)
        | .ok analysisOpt =>
          if optFalsy analysisOpt then
            (pre ++ [w3, w4, failW "Failed to analyze company information".data], false)
          else
            let analysis := analysisOpt.getD []
            if deepResearch && decide (0 < researchRounds) then
              let w5 := progressW ("Performing deep research on ".data ++ name)
              match env.deepRounds analysis with
              | .error e => (pre ++ [w3, w4, w5, failW (researchErrorMsg e)], false)
              | .ok enriched => (pre ++ [w3, w4, w5, completeW enriched], true)
            else (pre ++ [w3, w4, completeW analysis], true)

/-- Model of `ResearchPipeline.process` (research_processor.py lines
93-172): the sequence of `update_job_status` writes it issues and its
boolean return value.  `researchRounds` is the clamped value set by the
constructor. -/
def processModel (env : PipelineEnv) (deepResearch : Bool)
    (researchRounds : Int) : List UpdateArgs × Bool :=
  let w1 := progressW "Retrieving EQT portfolio data".data
  match env.fetchCompanies with
  | .error e => ([w1, failW (researchErrorMsg e)], false)
  | .ok companies =>
    if companies.isEmpty then
      ([w1, failW "Failed to access portfolio data".data], false)
    else
      let w2 := progressW "Identifying company to research".data
      match env.identifyCompany with
      | .error e => ([w1, w2, failW (researchErrorMsg e)], false)
      | .ok none => runFallback env [w1, w2]
      | .ok (some kvs) =>
        if kvs.isEmpty then runFallback env [w1, w2]
        else runMain env deepResearch researchRounds kvs [w1, w2]

/-- Constructor validation of `ResearchPipeline.__init__`
(research_processor.py lines 39-44): a falsy job id or a blank query
raises `ValueError`. -/
def constructorOk (jobId query : Str) : Bool :=
  !jobId.isEmpty && !(pyStrip query).isEmpty

/-- Clamping of the configured round budget performed by the
constructor (research_processor.py lines 66-68). -/
def clampRounds (r : Int) : Int := if r < 1 then 1 else r

/-- Model of the processor `lambda_handler` (research_processor.py lines
175-251): the HTTP-style status code it returns and the job-store writes
issued on its watch.  A missing or falsy `job_id`/`query` yields 400
with no writes; a constructor `ValueError` is caught by the top-level
handler and yields 500 with no writes; otherwise `process` runs. -/
def lambdaHandlerModel (env : PipelineEnv) (configRounds : Int)
    (jobId query : Option Str) (deepResearch : Bool) : Nat × List UpdateArgs :=
  if optFalsy jobId || optFalsy query then (400, [])
  else
    let j := jobId.getD []
    let q := query.getD []
    if constructorOk j q then
      (200, (processModel env deepResearch (clampRounds configRounds)).1)
    else (500, [])

/-- Variant of the fenced-block search following the specification text
of claim C8 word for word: step (1) considers only blocks tagged as
JSON.  Used solely to compare the documented algorithm with the code,
whose regex makes the tag optional. -/
def tryFencedTaggedAt (cs : Str) : Option Str :=
  if leadsWith fencePat cs && leadsWith "json".data (cs.drop 3) then
    findBefore fencePat (dropWs ((cs.drop 3).drop 4))
  else none

/-- Scan for the leftmost JSON-tagged fenced block. -/
def reSearchFencedTagged : Str → Option Str
  | [] => none
  | c :: rest =>
    match tryFencedTaggedAt (c :: rest) with
    | some g => some g
    | none => reSearchFencedTagged rest

/-- Modelled from the spec: the extraction algorithm as claim C8 states
it, with step (1) restricted to fenced blocks tagged as JSON. -/
def extractSpecTagged (text : Str) : Json :=
  if text.isEmpty then Json.obj []
  else
    match reSearchFencedTagged text with
    | some g => parseOrEmpty (cleanupCandidate g)
    | none =>
      match braceSpan text with
      | some g => parseOrEmpty (cleanupCandidate g)
      | none => Json.obj []

/-!
Claim C1: the deep-research round loop.
-/

/-- The loop begins at most `remaining` further rounds beyond the
`roundNum - 1` already begun. -/
theorem deepLoop_snd_le (o : ResearchOracle) :
    ∀ remaining roundNum analysis,
      (deepLoop o roundNum remaining analysis).2 ≤ roundNum - 1 + remaining := by
  intro remaining
  induction remaining with
  | zero => intro roundNum analysis; simp [deepLoop]
  | succ n ih =>
    intro roundNum analysis
    simp only [deepLoop]
    cases hg : (o.identifyGaps roundNum analysis).isEmpty with
    | true => simp; omega
    | false =>
      simp only [Bool.false_eq_true, if_false]
      cases hs : (o.research roundNum (o.identifyGaps roundNum analysis)).isEmpty with
      | true => simp; omega
      | false =>
        simp only [Bool.false_eq_true, if_false]
        by_cases hi : o.incorporate roundNum analysis
            (o.research roundNum (o.identifyGaps roundNum analysis)) = analysis
        · simp [hi]; omega
        · simp only [hi, if_false]
          have := ih (roundNum + 1)
            (o.incorporate roundNum analysis
              (o.research roundNum (o.identifyGaps roundNum analysis)))
          omega

/-- Claim C1 (amended): `perform_deep_research_rounds` begins at most
`max(rounds, 1)` rounds; and whenever one of the three convergence
signals (empty gaps, zero sections, unchanged analysis) fires in round
`r` of a budget-`b` run — the loop state with `b - r + 1` rounds still
allowed — the loop ends at round `r`, which is strictly below the
budget whenever `r < b`.  The original claim fails when the signal
fires in the final round (see the counterexample): the loop then uses
the whole budget, not strictly less. -/
theorem deep_research_rounds_bounded_and_stops (o : ResearchOracle)
    (q a : Str) (rounds : Int) :
    (perform_deep_research_rounds o q a rounds).2 ≤ effRounds rounds
    ∧ (∀ r b analysis, 1 ≤ r → r ≤ b → stopCondAt o r analysis →
        (deepLoop o r (b - r + 1) analysis).2 = r
        ∧ (r < b → (deepLoop o r (b - r + 1) analysis).2 < b)) := by
  constructor
  · unfold perform_deep_research_rounds
    by_cases h1 : (pyStrip q).isEmpty
    · simp [h1]
    · by_cases h2 : (pyStrip a).isEmpty
      · simp [h1, h2]
      · simp only [h1, h2, if_false, Bool.false_eq_true]
        have := deepLoop_snd_le o (effRounds rounds) 1 a
        omega
  · intro r b analysis _hr _hrb hstop
    have hstep : (deepLoop o r (b - r + 1) analysis).2 = r := by
      have hrem : b - r + 1 = Nat.succ (b - r) := rfl
      rw [hrem]
      simp only [deepLoop]
      cases hg : (o.identifyGaps r analysis).isEmpty with
      | true => simp
      | false =>
        simp only [Bool.false_eq_true, if_false]
        cases hs : (o.research r (o.identifyGaps r analysis)).isEmpty with
        | true => simp
        | false =>
          simp only [Bool.false_eq_true, if_false]
          by_cases hi : o.incorporate r analysis
              (o.research r (o.identifyGaps r analysis)) = analysis
          · simp [hi]
          · exfalso
            rcases hstop with h | h | h
            · rw [hg] at h; exact Bool.false_ne_true h
            · rw [hs] at h; exact Bool.false_ne_true h
            · exact hi h
    exact ⟨hstep, fun hlt => by omega⟩

/-- Oracle for the C1 counterexample and witness: no gaps are ever
identified, searches return nothing, and enrichment is the identity. -/
def c1StopOracle : ResearchOracle :=
  ⟨fun _ _ => [], fun _ _ => [], fun _ a _ => a⟩

/-- Claim C1 counterexample: with the default budget `rounds = 1`,
`identify_knowledge_gaps` returns the empty list in round 1, yet the
number of rounds begun equals the full budget `max(rounds, 1) = 1` —
the loop does not stop strictly before exhausting the round budget. -/
theorem deep_research_rounds_last_round_stop_cex :
    stopCondAt c1StopOracle 1 "a".data
    ∧ (perform_deep_research_rounds c1StopOracle "q".data "a".data 1).2
        = effRounds 1 :=
  ⟨Or.inl rfl, rfl⟩

/-- Witness for the amended claim C1 at a concrete oracle and budget. -/
theorem deep_research_rounds_bounded_and_stops_w :
    (deepLoop c1StopOracle 1 (2 - 1 + 1) "a".data).2 = 1
    ∧ ((1 : Nat) < 2 → (deepLoop c1StopOracle 1 (2 - 1 + 1) "a".data).2 < 2) :=
  (deep_research_rounds_bounded_and_stops c1StopOracle "q".data "a".data 2).2
    1 2 "a".data (by decide) (by decide) (Or.inl rfl)

/-!
Claim C2: totality and exactness of the structured-response extractor.
-/

/-- A pattern matches any extension of itself. -/
theorem leadsWith_append (p t : Str) : leadsWith p (p ++ t) = true := by
  induction p with
  | nil => rfl
  | cons c cs ih => simp [leadsWith, ih]

/-- Membership survives `dropWhile isPySpace`. -/
theorem mem_dropWs {c : Char} : ∀ {s : Str}, c ∈ dropWs s → c ∈ s := by
  intro s
  induction s with
  | nil => intro h; exact h
  | cons a rest ih =>
    intro h
    rw [dropWs, List.dropWhile_cons] at h
    by_cases ha : isPySpace a
    · rw [if_pos ha] at h; exact List.mem_cons_of_mem a (ih h)
    · rw [if_neg ha] at h; exact h

/-- Membership survives `trimRightStr`. -/
theorem mem_trimRight {c : Char} {s : Str} (h : c ∈ trimRightStr s) : c ∈ s := by
  unfold trimRightStr at h
  rw [List.mem_reverse] at h
  have := mem_dropWs (s := s.reverse) h
  rwa [List.mem_reverse] at this

/-- Membership survives `pyStrip`. -/
theorem mem_pyStrip {c : Char} {s : Str} (h : c ∈ pyStrip s) : c ∈ s :=
  mem_dropWs (mem_trimRight h)

/-- Distribution of `dropWs` over append. -/
theorem dropWs_append (s t : Str) :
    dropWs (s ++ t) = if dropWs s = [] then dropWs t else dropWs s ++ t := by
  induction s with
  | nil => simp [dropWs]
  | cons a rest ih =>
    by_cases ha : isPySpace a
    · simp only [dropWs, List.cons_append, List.dropWhile_cons, ha, if_true]
      exact ih
    · simp [dropWs, List.dropWhile_cons, ha]

/-- Idempotence of `dropWs`. -/
theorem dropWs_idem (s : Str) : dropWs (dropWs s) = dropWs s := by
  induction s with
  | nil => rfl
  | cons a rest ih =>
    by_cases ha : isPySpace a
    · simp only [dropWs, List.dropWhile_cons, ha, if_true]; exact ih
    · simp [dropWs, List.dropWhile_cons, ha]

/-- A trailing newline is stripped by `trimRightStr`. -/
theorem trimRight_append_newline (u : Str) :
    trimRightStr (u ++ ['\n']) = trimRightStr u := by
  unfold trimRightStr
  rw [List.reverse_append]
  simp [List.dropWhile_cons, show isPySpace '\n' = true from rfl]

/-- Cleaning the captured group: stripping the group recovers the
stripped block body. -/
theorem pyStrip_group (s : Str) (hne : dropWs s ≠ []) :
    pyStrip (dropWs s ++ ['\n']) = pyStrip s := by
  unfold pyStrip
  rw [dropWs_append, dropWs_idem, if_neg hne, trimRight_append_newline]

/-- The lazy group stops exactly at the closing fence when the body
contains no backquote. -/
theorem findBefore_fence (u : Str) (hu : btChar ∉ u) :
    findBefore fencePat (u ++ '\n' :: fencePat) = some (u ++ ['\n']) := by
  induction u with
  | nil => rfl
  | cons a rest ih =>
    have ha : ¬a = btChar := fun h => hu (h ▸ List.mem_cons_self a rest)
    have hrest : btChar ∉ rest := fun h => hu (List.mem_cons_of_mem a h)
    show findBefore fencePat (a :: (rest ++ '\n' :: fencePat)) = some (a :: (rest ++ ['\n']))
    have hl : leadsWith fencePat (a :: (rest ++ '\n' :: fencePat)) = false := by
      show (btChar == a && _) = false
      have : (btChar == a) = false := by
        rw [beq_eq_false_iff_ne]; exact fun h => ha h.symm
      rw [this]; rfl
    have hstep : findBefore fencePat (a :: (rest ++ '\n' :: fencePat))
        = if leadsWith fencePat (a :: (rest ++ '\n' :: fencePat)) then some []
          else (findBefore fencePat (rest ++ '\n' :: fencePat)).map (fun b => a :: b) := rfl
    rw [hstep, hl]
    simp only [Bool.false_eq_true, if_false, ih hrest]
    rfl

/-- The block body of a fenced JSON document, as built for the C2
theorems: opening fence, json tag, newline, body, newline, closing
fence. -/
def fencedJson (s : Str) : Str :=
  fencePat ++ ("json".data ++ ('\n' :: (s ++ '\n' :: fencePat)))

/-- The anchored fenced-block pattern captures the body (with its
trailing newline) of a fenced JSON document. -/
theorem tryFencedAt_fencedJson (s : Str) (hb : btChar ∉ s) (hne : dropWs s ≠ []) :
    tryFencedAt (fencedJson s) = some (dropWs s ++ ['\n']) := by
  have h1 : tryFencedAt (fencedJson s)
      = findBefore fencePat (dropWs (s ++ '\n' :: fencePat)) := rfl
  rw [h1, dropWs_append, if_neg hne]
  exact findBefore_fence (dropWs s) (fun h => hb (mem_dropWs h))

/-- A match anchored at the first character is what the scan returns. -/
theorem reSearchFenced_of_tryFencedAt (c : Char) (rest : Str) (g : Str)
    (h : tryFencedAt (c :: rest) = some g) : reSearchFenced (c :: rest) = some g := by
  rw [reSearchFenced, h]

/-- Comment-substitution identity: when the marker head never occurs,
the scan copies its input unchanged. -/
theorem stripCommentsGo_id (m0 : Char) (mrest : Str) :
    ∀ (fuel : Nat) (b : Bool) (cs : Str), m0 ∉ cs →
      stripCommentsGo (m0 :: mrest) fuel b cs = cs := by
  intro fuel
  induction fuel with
  | zero => intro b cs _; rfl
  | succ n ih =>
    intro b cs h
    match cs with
    | [] => rfl
    | c :: rest =>
      have hhead : commentHead (m0 :: mrest) (c :: rest) = false := by
        unfold commentHead
        cases hd : dropWs (c :: rest) with
        | nil => rfl
        | cons d ds =>
          show (m0 == d && _) = false
          have hdm : d ∈ c :: rest := mem_dropWs (hd ▸ List.mem_cons_self d ds)
          have : (m0 == d) = false := by
            rw [beq_eq_false_iff_ne]; exact fun he => h (he ▸ hdm)
          rw [this]; rfl
      rw [stripCommentsGo, hhead]
      simp only [Bool.and_false, Bool.false_eq_true, if_false]
      have hrest : m0 ∉ rest := fun hm => h (List.mem_cons_of_mem c hm)
      rw [ih (c == '\n') rest hrest]

/-- The full substitution is the identity when the marker head never
occurs. -/
theorem stripComments_id (m0 : Char) (mrest cs : Str) (h : m0 ∉ cs) :
    stripComments (m0 :: mrest) cs = cs :=
  stripCommentsGo_id m0 mrest cs.length true cs h

/-- Claim C2 (amended): the extractor is total by construction — it
returns some JSON value on every input, never an exception — but not
every returned value is dictionary-shaped (see the counterexample, a
fenced JSON array).  For a fenced block tagged json whose body is a
well-formed JSON object — made precise as: the stripped body parses as
an object, and the body contains no backquote (which would close the
fence early) and no slash or hash (which the comment-artifact
substitutions could swallow) — the extractor returns exactly the object
encoded by the block. -/
theorem extract_structured_data_total_and_fenced (s : Str) (kvs : List (Str × Json))
    (hb : btChar ∉ s) (hsl : '/' ∉ s) (hh : '#' ∉ s)
    (hp : parseJson (pyStrip s) = some (Json.obj kvs)) :
    extract_structured_data (fencedJson s) = Json.obj kvs
    ∧ ∀ t : Str, ∃ j : Json, extract_structured_data t = j := by
  have hne : dropWs s ≠ [] := by
    intro h0
    have hps : pyStrip s = [] := by unfold pyStrip; rw [h0]; rfl
    rw [hps] at hp
    exact Option.noConfusion hp
  have htry := tryFencedAt_fencedJson s hb hne
  have hclean : cleanupCandidate (dropWs s ++ ['\n']) = pyStrip s := by
    unfold cleanupCandidate
    rw [pyStrip_group s hne]
    rw [stripComments_id '/' ['/'] _ (fun hm => hsl (mem_pyStrip hm))]
    rw [stripComments_id '#' [] _ (fun hm => hh (mem_pyStrip hm))]
  constructor
  · have hsearch : reSearchFenced (fencedJson s) = some (dropWs s ++ ['\n']) := by
      have hshape : fencedJson s
          = btChar :: (btChar :: btChar :: ("json".data ++ ('\n' :: (s ++ '\n' :: fencePat)))) := rfl
      rw [hshape] at htry ⊢
      exact reSearchFenced_of_tryFencedAt _ _ _ htry
    unfold extract_structured_data
    rw [if_neg (show ¬(fencedJson s).isEmpty = true from by
      rw [show fencedJson s = btChar :: (btChar :: btChar :: ("json".data
        ++ ('\n' :: (s ++ '\n' :: fencePat)))) from rfl]
      simp)]
    rw [hsearch]
    show parseOrEmpty (cleanupCandidate (dropWs s ++ ['\n'])) = Json.obj kvs
    rw [hclean]
    unfold parseOrEmpty
    rw [hp]
  · intro t; exact ⟨_, rfl⟩

/-- Body used by the C2 witness: a one-member JSON object. -/
def c2Body : Str := lbChar :: ("\"a\": 1".data ++ [rbChar])

/-- Witness for the amended claim C2 at a concrete fenced object. -/
theorem extract_structured_data_total_and_fenced_w :
    extract_structured_data (fencedJson c2Body)
      = Json.obj [("a".data, Json.num ['1'])]
    ∧ ∀ t : Str, ∃ j : Json, extract_structured_data t = j :=
  extract_structured_data_total_and_fenced c2Body [("a".data, Json.num ['1'])]
    (by decide) (by decide) (by decide) rfl

/-- Claim C2 counterexample: a well-formed fenced JSON block holding an
array is returned as that array — the extractor does not always return
a dictionary-shaped structure. -/
theorem extract_fenced_array_not_dict_cex :
    extract_structured_data (fencedJson ("[1, 2]".data))
      = Json.arr [Json.num ['1'], Json.num ['2']]
    ∧ (extract_structured_data (fencedJson ("[1, 2]".data))).isObjVal = false :=
  ⟨rfl, rfl⟩

/-!
Claim C8: the extraction algorithm, step by step.
-/

/-- Claim C8 (amended): the extractor first searches for a fenced code
block — tagged json or not: the tag is optional in the source regex —
and only if no fenced block of any kind is present does it search for
the first-to-last brace span; a found candidate is stripped and cleaned
of line-comment artifacts and parsed, any parse failure or absence of a
match yielding the empty object.  In particular, for an input with no
fenced block but a brace span whose cleaned text parses as a JSON
object, that object is returned.  The original step (1) — only blocks
tagged as JSON — is refuted by the counterexample, where an untagged
fenced block preempts a bare JSON object. -/
theorem extract_structured_data_algorithm :
    (∀ t g, reSearchFenced t = some g →
        extract_structured_data t = parseOrEmpty (cleanupCandidate g))
    ∧ (∀ t g, reSearchFenced t = none → braceSpan t = some g →
        extract_structured_data t = parseOrEmpty (cleanupCandidate g))
    ∧ (∀ t, reSearchFenced t = none → braceSpan t = none →
        extract_structured_data t = Json.obj [])
    ∧ (∀ t g kvs, reSearchFenced t = none → braceSpan t = some g →
        parseJson (cleanupCandidate g) = some (Json.obj kvs) →
        extract_structured_data t = Json.obj kvs) := by
  have hfence : ∀ t g, reSearchFenced t = some g →
      extract_structured_data t = parseOrEmpty (cleanupCandidate g) := by
    intro t g h
    match t with
    | [] => exact absurd h (by simp [reSearchFenced])
    | c :: rest =>
      unfold extract_structured_data
      rw [if_neg (by simp)]
      rw [h]
  have hbrace : ∀ t g, reSearchFenced t = none → braceSpan t = some g →
      extract_structured_data t = parseOrEmpty (cleanupCandidate g) := by
    intro t g h1 h2
    match t with
    | [] => exact absurd h2 (by simp [braceSpan])
    | c :: rest =>
      unfold extract_structured_data
      rw [if_neg (by simp)]
      rw [h1, h2]
  refine ⟨hfence, hbrace, ?_, ?_⟩
  · intro t h1 h2
    unfold extract_structured_data
    split
    · rfl
    · rw [h1, h2]
  · intro t g kvs h1 h2 hp
    rw [hbrace t g h1 h2]
    unfold parseOrEmpty
    rw [hp]

/-- Input of the C8 witness: prose, no fence, one bare JSON object. -/
def c8WitnessInput : Str := "x ".data ++ (lbChar :: ("\"b\": 2".data ++ [rbChar]))

/-- Witness for the amended claim C8: with no fenced block present, the
bare JSON object of the brace span is what gets parsed. -/
theorem extract_structured_data_algorithm_w :
    extract_structured_data c8WitnessInput = Json.obj [("b".data, Json.num ['2'])] :=
  extract_structured_data_algorithm.2.2.2 c8WitnessInput
    (lbChar :: ("\"b\": 2".data ++ [rbChar])) [("b".data, Json.num ['2'])]
    rfl rfl rfl

/-- Input of the C8 counterexample: an untagged fenced block followed by
a bare JSON object. -/
def c8CexInput : Str :=
  fencePat ++ ('\n' :: ("hello\n".data ++ fencePat))
    ++ (' ' :: (lbChar :: ("\"a\": 1".data ++ [rbChar])))

/-- Claim C8 counterexample: the input has no fenced block tagged as
JSON, and the algorithm the claim describes (modelled by
`extractSpecTagged`) would parse the bare object; but the code matches
the untagged fenced block first, fails to parse its prose body, and
returns the empty object instead of the bare object. -/
theorem extract_untagged_fence_preempts_cex :
    reSearchFencedTagged c8CexInput = none
    ∧ extractSpecTagged c8CexInput = Json.obj [("a".data, Json.num ['1'])]
    ∧ extract_structured_data c8CexInput = Json.obj [] :=
  ⟨rfl, rfl, rfl⟩

/-!
Claims C3 and C4: the job-record invariant and termination of the
orchestrator in a terminal state.  The key structural fact is that every
trace of writes issued by `process` consists of progress writes followed
by exactly one terminal write.
-/

/-- A `_update_status` progress write. -/
def isProgressW (u : UpdateArgs) : Prop := ∃ m, u = progressW m

/-- Shape of the write trace and return flag: some progress writes, then
one terminal write matching the boolean outcome. -/
def ShapedTail (res : List UpdateArgs × Bool) (pre : List UpdateArgs) : Prop :=
  ∃ ms last, res.1 = pre ++ (ms ++ [last])
    ∧ (∀ u ∈ ms, isProgressW u)
    ∧ ((res.2 = true ∧ ∃ rr, last = completeW rr)
       ∨ (res.2 = false ∧ ∃ e, last = failW e))

/-- The no-company branch produces a shaped trace. -/
theorem runFallback_shape (env : PipelineEnv) (pre : List UpdateArgs) :
    ShapedTail (runFallback env pre) pre := by
  unfold ShapedTail
  cases henv : env.fallbackResp with
  | error e =>
    refine ⟨[progressW "Generating general response".data],
      failW (researchErrorMsg e), ?_, ?_, ?_⟩
    · simp [runFallback, henv]
    · intro u hu; simp at hu; subst hu; exact ⟨_, rfl⟩
    · exact Or.inr ⟨by simp [runFallback, henv], _, rfl⟩
  | ok fb =>
    by_cases hf : optFalsy fb
    · refine ⟨[progressW "Generating general response".data],
        failW "Failed to generate response".data, ?_, ?_, ?_⟩
      · simp [runFallback, henv, hf]
      · intro u hu; simp at hu; subst hu; exact ⟨_, rfl⟩
      · exact Or.inr ⟨by simp [runFallback, henv, hf], _, rfl⟩
    · refine ⟨[progressW "Generating general response".data],
        completeW (fb.getD []), ?_, ?_, ?_⟩
      · simp [runFallback, henv, hf]
      · intro u hu; simp at hu; subst hu; exact ⟨_, rfl⟩
      · exact Or.inl ⟨by simp [runFallback, henv, hf], _, rfl⟩

/-- The identified-company branch produces a shaped trace. -/
theorem runMain_shape (env : PipelineEnv) (d : Bool) (rr : Int)
    (kvs : List (Str × Json)) (pre : List UpdateArgs) :
    ShapedTail (runMain env d rr kvs pre) pre := by
  unfold ShapedTail
  cases hg : env.gatherInfo with
  | error e =>
    refine ⟨[progressW ("Gathering information about ".data ++ objGetName kvs)],
      failW (researchErrorMsg e), ?_, ?_, ?_⟩
    · simp [runMain, hg]
    · intro u hu; simp at hu; subst hu; exact ⟨_, rfl⟩
    · exact Or.inr ⟨by simp [runMain, hg], _, rfl⟩
  | ok gval =>
    obtain ⟨g1, g2⟩ := gval
    by_cases hfal : (optFalsy g1 || optFalsy g2) = true
    · refine ⟨[progressW ("Gathering information about ".data ++ objGetName kvs)],
        failW "Failed to gather company information".data, ?_, ?_, ?_⟩
      · simp [runMain, hg, hfal]
      · intro u hu; simp at hu; subst hu; exact ⟨_, rfl⟩
      · exact Or.inr ⟨by simp [runMain, hg, hfal], _, rfl⟩
    · cases hkb : env.queryKB with
      | error e =>
        refine ⟨[progressW ("Gathering information about ".data ++ objGetName kvs)],
          failW (researchErrorMsg e), ?_, ?_, ?_⟩
        · simp [runMain, hg, hfal, hkb]
        · intro u hu; simp at hu; subst hu; exact ⟨_, rfl⟩
        · exact Or.inr ⟨by simp [runMain, hg, hfal, hkb], _, rfl⟩
      | ok kb =>
        cases han : env.analyze with
        | error e =>
          refine ⟨[progressW ("Gathering information about ".data ++ objGetName kvs),
            progressW "Analyzing collected information".data],
            failW (researchErrorMsg e), ?_, ?_, ?_⟩
          · simp [runMain, hg, hfal, hkb, han]
          · intro u hu; simp at hu; rcases hu with h | h <;> (subst h; exact ⟨_, rfl⟩)
          · exact Or.inr ⟨by simp [runMain, hg, hfal, hkb, han], _, rfl⟩
        | ok anOpt =>
          by_cases hano : optFalsy anOpt = true
          · refine ⟨[progressW ("Gathering information about ".data ++ objGetName kvs),
              progressW "Analyzing collected information".data],
              failW "Failed to analyze company information".data, ?_, ?_, ?_⟩
            · simp [runMain, hg, hfal, hkb, han, hano]
            · intro u hu; simp at hu; rcases hu with h | h <;> (subst h; exact ⟨_, rfl⟩)
            · exact Or.inr ⟨by simp [runMain, hg, hfal, hkb, han, hano], _, rfl⟩
          · by_cases hdeep : (d && decide (0 < rr)) = true
            · cases hdr : env.deepRounds (anOpt.getD []) with
              | error e =>
                refine ⟨[progressW ("Gathering information about ".data ++ objGetName kvs),
                  progressW "Analyzing collected information".data,
                  progressW ("Performing deep research on ".data ++ objGetName kvs)],
                  failW (researchErrorMsg e), ?_, ?_, ?_⟩
                · simp [runMain, hg, hfal, hkb, han, hano, hdeep, hdr]
                · intro u hu; simp at hu
                  rcases hu with h | h | h <;> (subst h; exact ⟨_, rfl⟩)
                · exact Or.inr ⟨by simp [runMain, hg, hfal, hkb, han, hano, hdeep, hdr], _, rfl⟩
              | ok enriched =>
                refine ⟨[progressW ("Gathering information about ".data ++ objGetName kvs),
                  progressW "Analyzing collected information".data,
                  progressW ("Performing deep research on ".data ++ objGetName kvs)],
                  completeW enriched, ?_, ?_, ?_⟩
                · simp [runMain, hg, hfal, hkb, han, hano, hdeep, hdr]
                · intro u hu; simp at hu
                  rcases hu with h | h | h <;> (subst h; exact ⟨_, rfl⟩)
                · exact Or.inl ⟨by simp [runMain, hg, hfal, hkb, han, hano, hdeep, hdr], _, rfl⟩
            · refine ⟨[progressW ("Gathering information about ".data ++ objGetName kvs),
                progressW "Analyzing collected information".data],
                completeW (anOpt.getD []), ?_, ?_, ?_⟩
              · simp [runMain, hg, hfal, hkb, han, hano, hdeep]
              · intro u hu; simp at hu; rcases hu with h | h <;> (subst h; exact ⟨_, rfl⟩)
              · exact Or.inl ⟨by simp [runMain, hg, hfal, hkb, han, hano, hdeep], _, rfl⟩

/-- Every trace of `process` is progress writes followed by one terminal
write matching the boolean outcome. -/
theorem processModel_shape (env : PipelineEnv) (d : Bool) (rr : Int) :
    ShapedTail (processModel env d rr) [] := by
  have extend : ∀ (res : List UpdateArgs × Bool) (pre : List UpdateArgs),
      (∀ u ∈ pre, isProgressW u) → ShapedTail res pre → ShapedTail res [] := by
    intro res pre hpre ⟨ms, last, heq, hms, hflag⟩
    refine ⟨pre ++ ms, last, ?_, ?_, hflag⟩
    · rw [heq]; simp
    · intro u hu
      rcases List.mem_append.mp hu with h | h
      · exact hpre u h
      · exact hms u h
  unfold ShapedTail
  cases hfc : env.fetchCompanies with
  | error e =>
    refine ⟨[progressW "Retrieving EQT portfolio data".data],
      failW (researchErrorMsg e), ?_, ?_, ?_⟩
    · simp [processModel, hfc]
    · intro u hu; simp at hu; subst hu; exact ⟨_, rfl⟩
    · exact Or.inr ⟨by simp [processModel, hfc], _, rfl⟩
  | ok companies =>
    by_cases hemp : companies.isEmpty = true
    · refine ⟨[progressW "Retrieving EQT portfolio data".data],
        failW "Failed to access portfolio data".data, ?_, ?_, ?_⟩
      · simp [processModel, hfc, hemp]
      · intro u hu; simp at hu; subst hu; exact ⟨_, rfl⟩
      · exact Or.inr ⟨by simp [processModel, hfc, hemp], _, rfl⟩
    · have hpre2 : ∀ u ∈ [progressW "Retrieving EQT portfolio data".data,
          progressW "Identifying company to research".data], isProgressW u := by
        intro u hu; simp at hu; rcases hu with h | h <;> (subst h; exact ⟨_, rfl⟩)
      cases hid : env.identifyCompany with
      | error e =>
        refine ⟨[progressW "Retrieving EQT portfolio data".data,
          progressW "Identifying company to research".data],
          failW (researchErrorMsg e), ?_, ?_, ?_⟩
        · simp [processModel, hfc, hemp, hid]
        · exact hpre2
        · exact Or.inr ⟨by simp [processModel, hfc, hemp, hid], _, rfl⟩
      | ok cd =>
        cases cd with
        | none =>
          have hres : processModel env d rr
              = runFallback env [progressW "Retrieving EQT portfolio data".data,
                  progressW "Identifying company to research".data] := by
            simp [processModel, hfc, hemp, hid]
          rw [hres]
          exact extend _ _ hpre2 (runFallback_shape env _)
        | some kvs =>
          by_cases hkem : kvs.isEmpty = true
          · have hres : processModel env d rr
                = runFallback env [progressW "Retrieving EQT portfolio data".data,
                    progressW "Identifying company to research".data] := by
              simp [processModel, hfc, hemp, hid, hkem]
            rw [hres]
            exact extend _ _ hpre2 (runFallback_shape env _)
          · have hres : processModel env d rr
                = runMain env d rr kvs [progressW "Retrieving EQT portfolio data".data,
                    progressW "Identifying company to research".data] := by
              simp [processModel, hfc, hemp, hid, hkem]
            rw [hres]
            exact extend _ _ hpre2 (runMain_shape env d rr kvs _)

/-- The freshly created record is clean and non-terminal. -/
theorem cleanNT_initialJob : cleanNT initialJob :=
  ⟨Or.inl rfl, rfl, rfl⟩

/-- A clean non-terminal record satisfies the status invariant. -/
theorem cleanNT_statusInv (j : JobItem) (h : cleanNT j) : statusInv j := by
  obtain ⟨hs, hr, he⟩ := h
  refine ⟨?_, ?_, fun _ => ⟨hr, he⟩⟩
  · intro hc
    rcases hs with h1 | h1 <;> (rw [hc] at h1; exact JobStatus.noConfusion h1)
  · intro hc
    rcases hs with h1 | h1 <;> (rw [hc] at h1; exact JobStatus.noConfusion h1)

/-- A progress write keeps a clean record clean and non-terminal. -/
theorem cleanNT_progress (j : JobItem) (m : Str) (h : cleanNT j) :
    cleanNT (applyUpdate j (progressW m)) :=
  ⟨Or.inr rfl, h.2.1, h.2.2⟩

/-- A completion write on a clean record yields an invariant-satisfying
terminal record. -/
theorem statusInv_complete (j : JobItem) (r : Str) (h : cleanNT j) :
    statusInv (applyUpdate j (completeW r)) := by
  refine ⟨fun _ => ⟨?_, ?_⟩, ?_, ?_⟩
  · exact fun hn => Option.noConfusion hn
  · exact h.2.2
  · intro hc; exact JobStatus.noConfusion hc
  · intro hc; rcases hc with h1 | h1 <;> exact JobStatus.noConfusion h1

/-- A failure write on a clean record yields an invariant-satisfying
terminal record. -/
theorem statusInv_fail (j : JobItem) (e : Str) (h : cleanNT j) :
    statusInv (applyUpdate j (failW e)) := by
  refine ⟨?_, fun _ => ⟨?_, ?_⟩, ?_⟩
  · intro hc; exact JobStatus.noConfusion hc
  · exact fun hn => Option.noConfusion hn
  · exact h.2.1
  · intro hc; rcases hc with h1 | h1 <;> exact JobStatus.noConfusion h1

/-- Every intermediate record along a shaped trace satisfies the status
invariant. -/
theorem scanl_statusInv (ms : List UpdateArgs) :
    ∀ (init : JobItem) (last : UpdateArgs), cleanNT init →
      (∀ u ∈ ms, isProgressW u) →
      ((∃ rr, last = completeW rr) ∨ (∃ e, last = failW e)) →
      ∀ j ∈ List.scanl applyUpdate init (ms ++ [last]), statusInv j := by
  induction ms with
  | nil =>
    intro init last hinit _ hterm j hj
    simp only [List.nil_append, List.scanl_cons, List.scanl_nil] at hj
    simp only [List.singleton_append, List.mem_cons, List.mem_singleton] at hj
    rcases hj with rfl | rfl | h
    · exact cleanNT_statusInv _ hinit
    · rcases hterm with ⟨rr, rfl⟩ | ⟨e, rfl⟩
      · exact statusInv_complete _ _ hinit
      · exact statusInv_fail _ _ hinit
    · exact absurd h (List.not_mem_nil j)
  | cons m rest ih =>
    intro init last hinit hprog hterm j hj
    simp only [List.cons_append, List.scanl_cons, List.singleton_append,
      List.mem_cons] at hj
    rcases hj with rfl | hj
    · exact cleanNT_statusInv _ hinit
    · have hrest : ∀ u ∈ rest, isProgressW u :=
        fun u hu => hprog u (List.mem_cons_of_mem m hu)
      obtain ⟨msg, rfl⟩ := hprog m (List.mem_cons_self m rest)
      exact ih (applyUpdate init (progressW msg)) last
        (cleanNT_progress _ _ hinit) hrest hterm j hj

/-- Claim C3: starting from the freshly created record, every state
reached along any trace of `process` writes satisfies the invariant —
terminal states carry exactly the matching payload field (result for
`Completed`, error for `Failed`, never both, never neither) and
non-terminal states carry neither; and each of the three write shapes
(`_update_status`, `_complete_job`, `_fail_job`) preserves the
invariant from any clean non-terminal state. -/
theorem job_record_invariant :
    (∀ (env : PipelineEnv) (d : Bool) (rr : Int),
      ∀ j ∈ List.scanl applyUpdate initialJob (processModel env d rr).1, statusInv j)
    ∧ (∀ (j : JobItem) (m r e : Str), cleanNT j →
        statusInv (applyUpdate j (progressW m))
        ∧ statusInv (applyUpdate j (completeW r))
        ∧ statusInv (applyUpdate j (failW e))) := by
  constructor
  · intro env d rr j hj
    obtain ⟨ms, last, heq, hprog, hflag⟩ := processModel_shape env d rr
    rw [List.nil_append] at heq
    rw [heq] at hj
    have hterm : (∃ r2, last = completeW r2) ∨ (∃ e, last = failW e) := by
      rcases hflag with ⟨_, h⟩ | ⟨_, h⟩
      · exact Or.inl h
      · exact Or.inr h
    exact scanl_statusInv ms initialJob last cleanNT_initialJob hprog hterm j hj
  · intro j m r e h
    exact ⟨cleanNT_statusInv _ (cleanNT_progress j m h),
      statusInv_complete j r h, statusInv_fail j e h⟩

/-- Witness for claim C3: the progress, completion and failure writes
applied to the freshly created record all satisfy the invariant. -/
theorem job_record_invariant_w :
    statusInv (applyUpdate initialJob (progressW "m".data))
    ∧ statusInv (applyUpdate initialJob (completeW "r".data))
    ∧ statusInv (applyUpdate initialJob (failW "e".data)) :=
  job_record_invariant.2 initialJob "m".data "r".data "e".data cleanNT_initialJob

/-- Claim C4 (amended): once `process` runs, every control path —
including an unexpected exception in any step, which the top-level
handler converts to a failure write — ends with a terminal write, so
the job record (all store writes applied) ends `Completed` or `Failed`,
and the boolean outcome matches.  The original claim also covered
constructor validation failures such as a whitespace-only query; the
counterexample shows that path returns from the handler with no write
at all, leaving the job `Pending`. -/
theorem process_drives_job_terminal (env : PipelineEnv) (d : Bool) (rr : Int) :
    ((List.foldl applyUpdate initialJob (processModel env d rr).1).status = JobStatus.completed
      ∨ (List.foldl applyUpdate initialJob (processModel env d rr).1).status = JobStatus.failed)
    ∧ ((processModel env d rr).2 = true ↔
        (List.foldl applyUpdate initialJob (processModel env d rr).1).status
          = JobStatus.completed) := by
  obtain ⟨ms, last, heq, _, hflag⟩ := processModel_shape env d rr
  rw [List.nil_append] at heq
  have hfold : (List.foldl applyUpdate initialJob (processModel env d rr).1).status
      = last.status := by
    rw [heq, List.foldl_append]
    rfl
  rcases hflag with ⟨hb, rr2, hlast⟩ | ⟨hb, e, hlast⟩
  · have hst : last.status = JobStatus.completed := by rw [hlast]; rfl
    refine ⟨Or.inl (by rw [hfold, hst]), ?_⟩
    rw [hb, hfold, hst]
    exact ⟨fun _ => rfl, fun _ => rfl⟩
  · have hst : last.status = JobStatus.failed := by rw [hlast]; rfl
    refine ⟨Or.inr (by rw [hfold, hst]), ?_⟩
    rw [hb, hfold, hst]
    exact ⟨fun h => Bool.noConfusion h, fun h => JobStatus.noConfusion h⟩

/-- An arbitrary concrete environment, used where a pipeline run is
never reached. -/
def sampleEnv : PipelineEnv :=
  ⟨.ok [], .ok none, .ok none, .ok (none, none), .ok none, .ok none, fun _ => .ok []⟩

/-- Claim C4 counterexample: a whitespace-only query is truthy, so the
handler validation passes, but the `ResearchPipeline` constructor
raises `ValueError` before any store write; the handler catches it and
returns 500 having written nothing, leaving the job exactly as created:
`Pending`, a non-terminal state. -/
theorem handler_whitespace_query_leaves_pending_cex :
    optFalsy (some [' ']) = false
    ∧ lambdaHandlerModel sampleEnv 1 (some "job-1".data) (some [' ']) false = (500, [])
    ∧ (List.foldl applyUpdate initialJob
        (lambdaHandlerModel sampleEnv 1 (some "job-1".data) (some [' ']) false).2).status
      = JobStatus.pending :=
  ⟨rfl, rfl, rfl⟩

/-!
Claim C5: evidence gathering and content absence.
-/

/-- Claim C5 (amended): after URL validation succeeds,
`gather_company_info` itself treats absence of fetched content as
non-fatal — it returns whatever the scraper produced for both sites —
but the orchestrator then fails the job whenever either returned text
is absent or empty, not only when both are unobtainable; a validation
failure on a single URL likewise yields `(None, None)` and fails the
job. -/
theorem gather_nonfatal_but_process_fails_on_single_empty :
    (∀ (scrape : Str → Nat → Str) (cd : CompanyDict) (d : Bool) (link website : Str),
      dictGet cd "link".data = some link →
      (leadsWith "http://".data link || leadsWith "https://".data link) = true →
      dictGet cd "website".data = some website →
      (leadsWith "http://".data website || leadsWith "https://".data website) = true →
      (gather_company_info scrape cd d).1 = (some (scrape link 1), some (scrape website 2)))
    ∧ (∀ (env : PipelineEnv) (d : Bool) (rr : Int) (kvs : List (Str × Json))
        (g1 g2 : Option Str) (companies : List CompanyDict),
        env.fetchCompanies = .ok companies → companies ≠ [] →
        env.identifyCompany = .ok (some kvs) → kvs ≠ [] →
        env.gatherInfo = .ok (g1, g2) →
        (optFalsy g1 || optFalsy g2) = true →
        (processModel env d rr).1.getLast?
          = some (failW "Failed to gather company information".data)) := by
  constructor
  · intro scrape cd d link website hl hhl hw hhw
    have hcd : cd.isEmpty = false := by
      cases cd with
      | nil => simp [dictGet] at hl
      | cons a t => rfl
    have hlne : link.isEmpty = false := by
      cases link with
      | nil => exact absurd hhl (by decide)
      | cons a t => rfl
    have hwne : website.isEmpty = false := by
      cases website with
      | nil => exact absurd hhw (by decide)
      | cons a t => rfl
    simp [gather_company_info, hcd, hl, hlne, hhl, hw, hwne, hhw]
  · intro env d rr kvs g1 g2 companies hfc hcne hid hkne hg hfal
    have hcompe : companies.isEmpty = false := by
      cases companies with
      | nil => exact absurd rfl hcne
      | cons a t => rfl
    have hkvse : kvs.isEmpty = false := by
      cases kvs with
      | nil => exact absurd rfl hkne
      | cons a t => rfl
    have htr : (processModel env d rr).1
        = [progressW "Retrieving EQT portfolio data".data,
           progressW "Identifying company to research".data,
           progressW ("Gathering information about ".data ++ objGetName kvs),
           failW "Failed to gather company information".data] := by
      simp [processModel, hfc, hcompe, hid, hkvse, runMain, hg, hfal]
    rw [htr]
    rfl

/-- Company record of the C5 counterexample and witness. -/
def c5Company : CompanyDict :=
  [("name".data, "Acme".data), ("link".data, "https://eqt.example/acme".data),
   ("website".data, "https://acme.example".data)]

/-- Scraper of the C5 counterexample and witness: the reference page
yields text, the company site yields the empty string (a blocked
page). -/
def c5Scrape : Str → Nat → Str :=
  fun u _ => if u = "https://eqt.example/acme".data then "EQT page text".data else []

/-- Environment of the C5 counterexample: the gather step returns the
real `gather_company_info` output for `c5Company` under `c5Scrape`. -/
def c5Env : PipelineEnv :=
  ⟨.ok [c5Company], .ok (some [("name".data, Json.str "Acme".data)]), .ok none,
   .ok (gather_company_info c5Scrape c5Company false).1, .ok none, .ok none,
   fun _ => .ok []⟩

/-- Claim C5 counterexample: both URLs are valid, the reference-site
text is obtained, only the company-site text is empty — no validation
error at all — yet the orchestrator fails the job at this step instead
of proceeding with the text it has. -/
theorem process_fails_on_one_empty_site_cex :
    (gather_company_info c5Scrape c5Company false).1
      = (some "EQT page text".data, some [])
    ∧ (processModel c5Env false 1).1.getLast?
      = some (failW "Failed to gather company information".data) :=
  ⟨rfl, rfl⟩

/-- Witness for the amended claim C5 at the concrete company record. -/
theorem gather_nonfatal_but_process_fails_on_single_empty_w :
    (gather_company_info c5Scrape c5Company false).1
      = (some (c5Scrape "https://eqt.example/acme".data 1),
         some (c5Scrape "https://acme.example".data 2))
    ∧ (processModel c5Env false 1).1.getLast?
      = some (failW "Failed to gather company information".data) :=
  ⟨gather_nonfatal_but_process_fails_on_single_empty.1 c5Scrape c5Company false
      "https://eqt.example/acme".data "https://acme.example".data rfl rfl rfl rfl,
   gather_nonfatal_but_process_fails_on_single_empty.2 c5Env false 1
      [("name".data, Json.str "Acme".data)]
      (some "EQT page text".data) (some []) [c5Company]
      rfl (List.cons_ne_nil _ _) rfl (List.cons_ne_nil _ _) rfl rfl⟩

/-!
Claim C10: the fallback response and the no-entity path.
-/

/-- Helper: the fallback response is never empty, whatever the query and
whatever the model gateway does. -/
theorem fallback_never_empty (b : FallbackCallOut) (q : Str) :
    (generate_fallback_response b q).isEmpty = false := by
  unfold generate_fallback_response
  by_cases hq : (pyStrip q).isEmpty = true
  · rw [if_pos hq]; rfl
  · rw [if_neg hq]
    have hpne : (noCompanyPromptOf q).isEmpty = false := rfl
    show (if (noCompanyPromptOf q).isEmpty = true then cannedNoPrompt
      else match b with
        | .raiseValueError => cannedValueError
        | .raiseOther => cannedOnlyPortfolio
        | .resp none => cannedOnlyPortfolio
        | .resp (some r) => if r.isEmpty = true then cannedOnlyPortfolio else r).isEmpty
      = false
    rw [if_neg (by rw [hpne]; exact Bool.false_ne_true)]
    cases b with
    | raiseValueError => rfl
    | raiseOther => rfl
    | resp r =>
      cases r with
      | none => rfl
      | some s =>
        show List.isEmpty (if s.isEmpty = true then cannedOnlyPortfolio else s) = false
        cases hs : s.isEmpty with
        | true => rfl
        | false => exact hs

/-- Claim C10: `generate_fallback_response` returns a non-empty string
for every query and every model-gateway outcome (absent response,
empty response, raised exception); consequently, when the entity
resolver returns `None`, the orchestrator branch that would fail with
"Failed to generate response" is unreachable: with the real fallback
output plugged into the pipeline, the run returns success, the job
record ends `Completed`, and the final write stores the fallback text
(store writes are applied as issued, i.e. assumed to succeed). -/
theorem fallback_nonempty_and_no_entity_completes :
    (∀ (b : FallbackCallOut) (q : Str),
      (generate_fallback_response b q).isEmpty = false)
    ∧ (∀ (env : PipelineEnv) (b : FallbackCallOut) (q : Str) (d : Bool) (rr : Int)
        (companies : List CompanyDict),
        env.fetchCompanies = .ok companies → companies ≠ [] →
        env.identifyCompany = .ok none →
        env.fallbackResp = .ok (some (generate_fallback_response b q)) →
        (processModel env d rr).2 = true
        ∧ (List.foldl applyUpdate initialJob (processModel env d rr).1).status
            = JobStatus.completed
        ∧ (processModel env d rr).1.getLast?
            = some (completeW (generate_fallback_response b q))) := by
  refine ⟨fallback_never_empty, ?_⟩
  intro env b q d rr companies hfc hcne hid hfb
  have hcompe : companies.isEmpty = false := by
    cases companies with
    | nil => exact absurd rfl hcne
    | cons a t => rfl
  have hne := fallback_never_empty b q
  have htr : processModel env d rr
      = ([progressW "Retrieving EQT portfolio data".data,
          progressW "Identifying company to research".data,
          progressW "Generating general response".data,
          completeW (generate_fallback_response b q)], true) := by
    simp [processModel, hfc, hcompe, hid, runFallback, hfb, optFalsy, hne]
  refine ⟨by rw [htr], by rw [htr]; rfl, by rw [htr]; rfl⟩

/-- Environment of the C10 witness: no entity resolved, the real
fallback output supplied to the pipeline. -/
def c10Env : PipelineEnv :=
  ⟨.ok [[]], .ok none,
   .ok (some (generate_fallback_response (.resp none) "hi".data)),
   .ok (none, none), .ok none, .ok none, fun _ => .ok []⟩

/-- Witness for claim C10 at a concrete environment. -/
theorem fallback_nonempty_and_no_entity_completes_w :
    (processModel c10Env false 1).2 = true
    ∧ (List.foldl applyUpdate initialJob (processModel c10Env false 1).1).status
        = JobStatus.completed
    ∧ (processModel c10Env false 1).1.getLast?
        = some (completeW (generate_fallback_response (.resp none) "hi".data)) :=
  fallback_nonempty_and_no_entity_completes.2 c10Env (.resp none) "hi".data false 1
    [[]] rfl (List.cons_ne_nil _ _) rfl rfl

/-!
Claim C6: the model-gateway retry policy.
-/

/-- Extraction of a successful converse response never raises. -/
theorem extractConverse_not_raised (c : Option (List ContentItem)) :
    (extractConverse c).isRaised = false := by
  cases c with
  | none => rfl
  | some items =>
    cases hft : firstText items with
    | none => simp [extractConverse, hft, CallResult.isRaised]
    | some t => simp [extractConverse, hft, CallResult.isRaised]

/-- Claim C6 (amended): provided the runtime client is successfully
constructed (region present, `boto3.client` returns), the gateway never
raises; it issues the reduced-budget retry call — call log
`[maxTokens, 2000]` — exactly when the first call times out, the tier
is the largest, and the requested budget exceeds 2000; a timeout under
any other condition, and throttling, access-denied and
parameter-validation failures, produce no retry and an absent result.
The unamended totality claim fails when client construction itself
raises: the except clauses then reference the unbound `client` local
and `UnboundLocalError` escapes (see the counterexample). -/
theorem bedrock_retry_policy (env : BedrockEnv) (p : Str) (size : ModelSize)
    (tokens : Nat) (r0 : Str) (hreg : env.region = some r0)
    (hcl : env.clientCreate = .ok ()) (hp : (pyStrip p).isEmpty = false) :
    (get_bedrock_response env p size tokens).1.isRaised = false
    ∧ ((get_bedrock_response env p size tokens).2 = [tokens, 2000]
        ↔ (env.converse tokens = .timeout ∧ size = .large ∧ 2000 < tokens))
    ∧ (env.converse tokens = .timeout → ¬(size = .large ∧ 2000 < tokens) →
        get_bedrock_response env p size tokens = (.value none, [tokens]))
    ∧ (env.converse tokens = .throttling →
        get_bedrock_response env p size tokens = (.value none, [tokens]))
    ∧ (env.converse tokens = .accessDenied →
        get_bedrock_response env p size tokens = (.value none, [tokens]))
    ∧ (env.converse tokens = .paramValidation →
        get_bedrock_response env p size tokens = (.value none, [tokens])) := by
  have hpne : ¬((pyStrip p).isEmpty = true) := by
    rw [hp]; exact Bool.false_ne_true
  cases hcv : env.converse tokens with
  | ok content =>
    refine ⟨?_, ?_, ?_, ?_, ?_, ?_⟩
    · simp [get_bedrock_response, hpne, hreg, hcl, hcv, extractConverse_not_raised]
    · simp [get_bedrock_response, hpne, hreg, hcl, hcv]
    all_goals (intro h; exact ConverseOut.noConfusion h)
  | timeout =>
    by_cases hcond : size = .large ∧ 2000 < tokens
    · cases hcv2 : env.converse 2000 with
      | ok content2 =>
        refine ⟨?_, ?_, ?_, ?_, ?_, ?_⟩
        · simp [get_bedrock_response, hpne, hreg, hcl, hcv, hcond, hcv2,
            extractConverse_not_raised]
        · simp [get_bedrock_response, hpne, hreg, hcl, hcv, hcond, hcv2]
        · intro _ hnc; exact absurd hcond hnc
        all_goals (intro h; exact ConverseOut.noConfusion h)
      | timeout =>
        refine ⟨?_, ?_, ?_, ?_, ?_, ?_⟩
        · simp [get_bedrock_response, hpne, hreg, hcl, hcv, hcond, hcv2,
            CallResult.isRaised]
        · simp [get_bedrock_response, hpne, hreg, hcl, hcv, hcond, hcv2]
        · intro _ hnc; exact absurd hcond hnc
        all_goals (intro h; exact ConverseOut.noConfusion h)
      | accessDenied =>
        refine ⟨?_, ?_, ?_, ?_, ?_, ?_⟩
        · simp [get_bedrock_response, hpne, hreg, hcl, hcv, hcond, hcv2,
            CallResult.isRaised]
        · simp [get_bedrock_response, hpne, hreg, hcl, hcv, hcond, hcv2]
        · intro _ hnc; exact absurd hcond hnc
        all_goals (intro h; exact ConverseOut.noConfusion h)
      | resourceNotFound =>
        refine ⟨?_, ?_, ?_, ?_, ?_, ?_⟩
        · simp [get_bedrock_response, hpne, hreg, hcl, hcv, hcond, hcv2,
            CallResult.isRaised]
        · simp [get_bedrock_response, hpne, hreg, hcl, hcv, hcond, hcv2]
        · intro _ hnc; exact absurd hcond hnc
        all_goals (intro h; exact ConverseOut.noConfusion h)
      | throttling =>
        refine ⟨?_, ?_, ?_, ?_, ?_, ?_⟩
        · simp [get_bedrock_response, hpne, hreg, hcl, hcv, hcond, hcv2,
            CallResult.isRaised]
        · simp [get_bedrock_response, hpne, hreg, hcl, hcv, hcond, hcv2]
        · intro _ hnc; exact absurd hcond hnc
        all_goals (intro h; exact ConverseOut.noConfusion h)
      | paramValidation =>
        refine ⟨?_, ?_, ?_, ?_, ?_, ?_⟩
        · simp [get_bedrock_response, hpne, hreg, hcl, hcv, hcond, hcv2,
            CallResult.isRaised]
        · simp [get_bedrock_response, hpne, hreg, hcl, hcv, hcond, hcv2]
        · intro _ hnc; exact absurd hcond hnc
        all_goals (intro h; exact ConverseOut.noConfusion h)
      | clientError =>
        refine ⟨?_, ?_, ?_, ?_, ?_, ?_⟩
        · simp [get_bedrock_response, hpne, hreg, hcl, hcv, hcond, hcv2,
            CallResult.isRaised]
        · simp [get_bedrock_response, hpne, hreg, hcl, hcv, hcond, hcv2]
        · intro _ hnc; exact absurd hcond hnc
        all_goals (intro h; exact ConverseOut.noConfusion h)
      | otherError =>
        refine ⟨?_, ?_, ?_, ?_, ?_, ?_⟩
        · simp [get_bedrock_response, hpne, hreg, hcl, hcv, hcond, hcv2,
            CallResult.isRaised]
        · simp [get_bedrock_response, hpne, hreg, hcl, hcv, hcond, hcv2]
        · intro _ hnc; exact absurd hcond hnc
        all_goals (intro h; exact ConverseOut.noConfusion h)
    · refine ⟨?_, ?_, ?_, ?_, ?_, ?_⟩
      · simp [get_bedrock_response, hpne, hreg, hcl, hcv, hcond, CallResult.isRaised]
      · constructor
        · intro h
          exfalso
          have : get_bedrock_response env p size tokens = (.value none, [tokens]) := by
            simp [get_bedrock_response, hpne, hreg, hcl, hcv, hcond]
          rw [this] at h
          simp at h
        · intro ⟨_, h2, h3⟩; exact absurd ⟨h2, h3⟩ hcond
      · intro _ _; simp [get_bedrock_response, hpne, hreg, hcl, hcv, hcond]
      all_goals (intro h; exact ConverseOut.noConfusion h)
  | accessDenied =>
    refine ⟨?_, ?_, ?_, ?_, ?_, ?_⟩
    · simp [get_bedrock_response, hpne, hreg, hcl, hcv, CallResult.isRaised]
    · simp [get_bedrock_response, hpne, hreg, hcl, hcv]
    · intro h; exact ConverseOut.noConfusion h
    · intro h; exact ConverseOut.noConfusion h
    · intro _; simp [get_bedrock_response, hpne, hreg, hcl, hcv]
    · intro h; exact ConverseOut.noConfusion h
  | resourceNotFound =>
    refine ⟨?_, ?_, ?_, ?_, ?_, ?_⟩
    · simp [get_bedrock_response, hpne, hreg, hcl, hcv, CallResult.isRaised]
    · simp [get_bedrock_response, hpne, hreg, hcl, hcv]
    all_goals (intro h; exact ConverseOut.noConfusion h)
  | throttling =>
    refine ⟨?_, ?_, ?_, ?_, ?_, ?_⟩
    · simp [get_bedrock_response, hpne, hreg, hcl, hcv, CallResult.isRaised]
    · simp [get_bedrock_response, hpne, hreg, hcl, hcv]
    · intro h; exact ConverseOut.noConfusion h
    · intro _; simp [get_bedrock_response, hpne, hreg, hcl, hcv]
    · intro h; exact ConverseOut.noConfusion h
    · intro h; exact ConverseOut.noConfusion h
  | paramValidation =>
    refine ⟨?_, ?_, ?_, ?_, ?_, ?_⟩
    · simp [get_bedrock_response, hpne, hreg, hcl, hcv, CallResult.isRaised]
    · simp [get_bedrock_response, hpne, hreg, hcl, hcv]
    · intro h; exact ConverseOut.noConfusion h
    · intro h; exact ConverseOut.noConfusion h
    · intro h; exact ConverseOut.noConfusion h
    · intro _; simp [get_bedrock_response, hpne, hreg, hcl, hcv]
  | clientError =>
    refine ⟨?_, ?_, ?_, ?_, ?_, ?_⟩
    · simp [get_bedrock_response, hpne, hreg, hcl, hcv, CallResult.isRaised]
    · simp [get_bedrock_response, hpne, hreg, hcl, hcv]
    all_goals (intro h; exact ConverseOut.noConfusion h)
  | otherError =>
    refine ⟨?_, ?_, ?_, ?_, ?_, ?_⟩
    · simp [get_bedrock_response, hpne, hreg, hcl, hcv, CallResult.isRaised]
    · simp [get_bedrock_response, hpne, hreg, hcl, hcv]
    all_goals (intro h; exact ConverseOut.noConfusion h)

/-- Environment of the C6 counterexample: `boto3.client` raises. -/
def c6Env : BedrockEnv :=
  ⟨some "us-west-2".data, .error "client construction failed".data, fun _ => .ok none⟩

/-- Claim C6 counterexample: when client construction raises, the
exception-clause lookup of the unbound `client` local raises
`UnboundLocalError`, which escapes the function — contradicting "never
raising an exception past its boundary" for every collaborator
failure. -/
theorem bedrock_raises_on_client_failure_cex :
    get_bedrock_response c6Env "hi".data ModelSize.large 4000
      = (.raised "UnboundLocalError".data, []) := rfl

/-- Environment of the C6 witness: the 4000-token call times out, the
2000-token retry succeeds. -/
def c6WEnv : BedrockEnv :=
  ⟨some "us-west-2".data, .ok (),
   fun t => if t = 4000 then .timeout else .ok (some [.text "ok".data])⟩

/-- Witness for the amended claim C6: the retry fires exactly under the
stated condition at a concrete environment. -/
theorem bedrock_retry_policy_w :
    (get_bedrock_response c6WEnv "hi".data ModelSize.large 4000).2 = [4000, 2000] :=
  ((bedrock_retry_policy c6WEnv "hi".data .large 4000 "us-west-2".data
      rfl rfl rfl).2.1).mpr ⟨rfl, rfl, by decide⟩

/-!
Claim C7: determinism of entity resolution.
-/

/-- Claim C7 (amended): given a fixed model response,
`identify_company_in_query` is a function of that response; an absent
response, or a response whose structured extraction is falsy (the empty
object, the empty list, or any other Python-falsy value), yields the
explicit no-entity signal `None` rather than an error; and for any
NON-EMPTY entity object, a response extracting to the one-element list
holding that object and a response extracting to the bare object
resolve to the same entity record.  The original claim, quantified over
every entity object, fails at the empty object (see the
counterexample): the bare empty object is falsy and yields `None`,
while the one-element list holding it is truthy and yields the empty
object. -/
theorem identify_company_deterministic :
    (∀ (q : Str) (cs : List CompanyDict) (r : Str),
      identify_company_in_query none q cs = none
      ∧ (jsonFalsy (extract_structured_data r) = true →
          identify_company_in_query (some r) q cs = none))
    ∧ (∀ (q : Str) (cs : List CompanyDict) (r1 r2 : Str) (kvs : List (Str × Json)),
        (pyStrip q).isEmpty = false → cs ≠ [] → kvs ≠ [] →
        r1.isEmpty = false → r2.isEmpty = false →
        extract_structured_data r1 = Json.arr [Json.obj kvs] →
        extract_structured_data r2 = Json.obj kvs →
        identify_company_in_query (some r1) q cs = some (Json.obj kvs)
        ∧ identify_company_in_query (some r2) q cs = some (Json.obj kvs)) := by
  constructor
  · intro q cs r
    constructor
    · by_cases hq : (pyStrip q).isEmpty = true
      · simp [identify_company_in_query, hq]
      · by_cases hcs : cs.isEmpty = true
        · simp [identify_company_in_query, hq, hcs]
        · simp [identify_company_in_query, hq, hcs]
    · intro hfal
      by_cases hq : (pyStrip q).isEmpty = true
      · simp [identify_company_in_query, hq]
      · by_cases hcs : cs.isEmpty = true
        · simp [identify_company_in_query, hq, hcs]
        · by_cases hr : r.isEmpty = true
          · simp [identify_company_in_query, hq, hcs, hr]
          · simp [identify_company_in_query, hq, hcs, hr, hfal]
  · intro q cs r1 r2 kvs hq hcs hkvs hr1 hr2 he1 he2
    have hcse : cs.isEmpty = false := by
      cases cs with
      | nil => exact absurd rfl hcs
      | cons a t => rfl
    have hkf : jsonFalsy (Json.arr [Json.obj kvs]) = false := rfl
    have hkf2 : jsonFalsy (Json.obj kvs) = false := by
      cases kvs with
      | nil => exact absurd rfl hkvs
      | cons a t => rfl
    constructor
    · simp [identify_company_in_query, hq, hcse, hr1, he1, hkf]
    · simp [identify_company_in_query, hq, hcse, hr2, he2, hkf2]

/-- Model responses of the C7 counterexample: the fenced one-element
list holding the empty object, and the fenced bare empty object. -/
def c7Resp1 : Str := fencedJson ('[' :: lbChar :: rbChar :: [']'])

/-- The fenced bare empty object. -/
def c7Resp2 : Str := fencedJson [lbChar, rbChar]

/-- A one-company catalog for the C7 theorems. -/
def c7Companies : List CompanyDict := [[("name".data, "Acme".data)]]

/-- Claim C7 counterexample: for the entity object o = the empty
object, a response extracting to [o] resolves to o while a response
extracting to the bare o yields the no-entity signal — the two do not
resolve to the same entity record. -/
theorem identify_empty_object_list_vs_bare_cex :
    extract_structured_data c7Resp1 = Json.arr [Json.obj []]
    ∧ extract_structured_data c7Resp2 = Json.obj []
    ∧ identify_company_in_query (some c7Resp1) "Tell me about Acme".data c7Companies
        = some (Json.obj [])
    ∧ identify_company_in_query (some c7Resp2) "Tell me about Acme".data c7Companies
        = none :=
  ⟨rfl, rfl, rfl, rfl⟩

/-- Model responses of the C7 witness: list form and bare form of the
same one-field entity object. -/
def c7WResp1 : Str := fencedJson ('[' :: lbChar :: ("\"name\": \"A\"".data ++ [rbChar, ']']))

/-- Bare form of the C7 witness object. -/
def c7WResp2 : Str := fencedJson (lbChar :: ("\"name\": \"A\"".data ++ [rbChar]))

/-- Witness for the amended claim C7 at a concrete non-empty entity
object. -/
theorem identify_company_deterministic_w :
    identify_company_in_query (some c7WResp1) "Tell me about A".data c7Companies
      = some (Json.obj [("name".data, Json.str "A".data)])
    ∧ identify_company_in_query (some c7WResp2) "Tell me about A".data c7Companies
      = some (Json.obj [("name".data, Json.str "A".data)]) :=
  identify_company_deterministic.2 "Tell me about A".data c7Companies
    c7WResp1 c7WResp2 [("name".data, Json.str "A".data)]
    rfl (List.cons_ne_nil _ _) (List.cons_ne_nil _ _) rfl rfl rfl rfl

/-!
Claim C9: the deep-research flag does not influence evidence gathering.
-/

/-- Claim C9: `gather_company_info` issues identical fetch requests and
returns identical results whatever the value of the `deep_research`
flag (the conditional depth is commented out in the source), and under
valid URLs the request log is exactly the reference page at depth 1
followed by the company website at depth 2. -/
theorem gather_ignores_deep_research_flag :
    (∀ (scrape : Str → Nat → Str) (cd : CompanyDict),
      gather_company_info scrape cd true = gather_company_info scrape cd false)
    ∧ (∀ (scrape : Str → Nat → Str) (cd : CompanyDict) (d : Bool) (link website : Str),
        dictGet cd "link".data = some link →
        (leadsWith "http://".data link || leadsWith "https://".data link) = true →
        dictGet cd "website".data = some website →
        (leadsWith "http://".data website || leadsWith "https://".data website) = true →
        (gather_company_info scrape cd d).2 = [(link, 1), (website, 2)]) := by
  constructor
  · intro scrape cd; rfl
  · intro scrape cd d link website hl hhl hw hhw
    have hcd : cd.isEmpty = false := by
      cases cd with
      | nil => simp [dictGet] at hl
      | cons a t => rfl
    have hlne : link.isEmpty = false := by
      cases link with
      | nil => exact absurd hhl (by decide)
      | cons a t => rfl
    have hwne : website.isEmpty = false := by
      cases website with
      | nil => exact absurd hhw (by decide)
      | cons a t => rfl
    simp [gather_company_info, hcd, hl, hlne, hhl, hw, hwne, hhw]

/-- Witness for claim C9 at the concrete company record: the two fetch
requests with their fixed depths. -/
theorem gather_ignores_deep_research_flag_w :
    (gather_company_info c5Scrape c5Company true).2
      = [("https://eqt.example/acme".data, 1), ("https://acme.example".data, 2)] :=
  gather_ignores_deep_research_flag.2 c5Scrape c5Company true
    "https://eqt.example/acme".data "https://acme.example".data rfl rfl rfl rfl
